import Mathlib

/-!
Shallow embedding of the payment-settlement and order-fulfillment engine of
the CLOTH_SH store backend (Express + Mongoose).  The definitions below are
translated from `backend/src/routes/payment.js`, `backend/src/routes/orders.js`,
`backend/src/utils/transactions.js` and the Mongoose models.  MongoDB
collections become lists inside a `DB` record; `findById`/`findOne` become
first-match searches; a document `save()` becomes a first-match functional
update.  JavaScript falsy checks on strings/numbers (`x || d`) are translated
explicitly (`""`/`0` are the falsy cases that arise).  Statuses are kept as the
string literals the source writes.  Product stock is an `Int` so that the
clamping (`Math.max(0, ...)`) and the conditional `$gte` update are meaningful.
Timestamps (`stockReducedAt`, history timestamps), geolocation fields and SMS
bookkeeping are not modelled: no claim mentions them.
-/

namespace ClothShop

/-- Saved / shipping address.  Only the fields the engine reads are kept. -/
structure Address where
  label : String
  fullName : String
  phone : String
  houseNo : String
  street : String
  landmark : String
  city : String
  state : String
  pincode : String
  isDefault : Bool
deriving DecidableEq, Repr

/-- An address with every field empty (JS `{}` after the `|| ''` defaults). -/
def emptyAddress : Address :=
  { label := "", fullName := "", phone := "", houseNo := "", street := ""
    landmark := "", city := "", state := "", pincode := "", isDefault := false }

/-- One cart line item.  In the source `item.product` is either a real product
ObjectId, a string starting with `demo-`, or absent; the `demo-` branch and the
absent branch execute identical code (an ad-hoc item), so both are modelled as
`none`. -/
structure CartItem where
  product : Option Nat
  name : String
  price : Nat
  image : String
  quantity : Nat
  size : String
  color : String
deriving DecidableEq, Repr

structure Cart where
  user : Nat
  items : List CartItem
deriving DecidableEq, Repr

/-- One order line item (embedded in the Order document). -/
structure OrderItem where
  product : Option Nat
  name : String
  price : Nat
  image : String
  quantity : Nat
  size : String
  color : String
deriving DecidableEq, Repr

/-- One status-history entry (timestamp not modelled). -/
structure StatusEntry where
  status : String
  note : String
deriving DecidableEq, Repr

/-- The Order document (`models/Order.js`), restricted to the fields the
settlement engine reads or writes. -/
structure Order where
  id : Nat
  user : Nat
  orderNumber : Nat
  items : List OrderItem
  totalAmount : Nat
  shippingCharge : Nat
  status : String
  paymentMethod : String
  paymentStatus : String
  paymentId : Option String
  razorpayOrderId : Option String
  razorpaySignature : Option String
  upiId : String
  shippingAddress : Address
  stockReduced : Bool
  statusHistory : List StatusEntry
  invoicePath : Option String
deriving DecidableEq, Repr

/-- The Payment ledger document (`models/Payment.js`), restricted to the fields
the engine writes. -/
structure Payment where
  razorpayPaymentId : Option String
  razorpayOrderId : Option String
  order : Option Nat
  user : Nat
  amount : Nat
  method : String
  status : String
deriving DecidableEq, Repr

/-- Product stock is `Int` so non-negativity is a real property of the code,
not of the type. -/
structure Product where
  id : Nat
  name : String
  price : Nat
  firstImage : String
  stock : Int
deriving DecidableEq, Repr

structure User where
  id : Nat
  addresses : List Address
deriving DecidableEq, Repr

/-- The persistent state: the Mongo collections plus the `Settings` row for the
admin UPI id and a fresh-ObjectId counter for newly inserted orders. -/
structure DB where
  orders : List Order
  payments : List Payment
  products : List Product
  carts : List Cart
  users : List User
  upiSetting : Option String
  nextId : Nat
deriving DecidableEq, Repr

/-- Update the first element satisfying `m` (Mongo `updateOne` / document
`save()` semantics on a first-match lookup). -/
def updateFirstBy (m : α → Bool) (f : α → α) : List α → List α
  | [] => []
  | x :: rest => if m x then f x :: rest else x :: updateFirstBy m f rest

/-- `Order.findById` -/
def findOrder : List Order → Nat → Option Order
  | [], _ => none
  | o :: rest, oid => if o.id = oid then some o else findOrder rest oid

/-- `Order.findOne({ paymentId })` -/
def findOrderByPid : List Order → String → Option Order
  | [], _ => none
  | o :: rest, s => if o.paymentId = some s then some o else findOrderByPid rest s

/-- Is there an order with this razorpay payment id and `paymentStatus: 'Paid'`? -/
def hasPaidOrderWithPid : List Order → String → Bool
  | [], _ => false
  | o :: rest, s =>
      if o.paymentId = some s ∧ o.paymentStatus = "Paid" then true
      else hasPaidOrderWithPid rest s

/-- `Product.findById` -/
def findProduct : List Product → Nat → Option Product
  | [], _ => none
  | p :: rest, pid => if p.id = pid then some p else findProduct rest pid

/-- `Cart.findOne({ user })` -/
def findCart : List Cart → Nat → Option Cart
  | [], _ => none
  | c :: rest, uid => if c.user = uid then some c else findCart rest uid

/-- `User.findById` -/
def findUser : List User → Nat → Option User
  | [], _ => none
  | u :: rest, uid => if u.id = uid then some u else findUser rest uid

/-- Is there a ledger entry with this razorpay payment id?  (The sparse unique
index on `razorpayPaymentId`.) -/
def hasPaymentWithPid : List Payment → String → Bool
  | [], _ => false
  | p :: rest, s => if p.razorpayPaymentId = some s then true else hasPaymentWithPid rest s

/-- Save an order document back by `_id`. -/
def updateOrderDB (db : DB) (oid : Nat) (f : Order → Order) : DB :=
  { db with orders := updateFirstBy (fun o => decide (o.id = oid)) f db.orders }

/-- JS template-literal rendering of a possibly-undefined string. -/
def jsStr : Option String → String
  | none => "undefined"
  | some s => s

/-- JS `q || 1` on a quantity. -/
def qtyOr1 (q : Nat) : Nat := if q = 0 then 1 else q

/-- JS `a || b` on strings (empty string is falsy). -/
def strOr (a b : String) : String := if a = "" then b else a

/-- JS `a || b` on numbers (0 is falsy). -/
def numOr (a b : Nat) : Nat := if a = 0 then b else a

/-- `getAdminUpiId` (payment.js): `Settings 'upi'` value, with the env default
`'store@upi'`. -/
def getAdminUpiId (db : DB) : String :=
  match db.upiSetting with
  | some v => v
  | none => "store@upi"

/-- `isPaymentAlreadyProcessed` (payment.js lines 128-132): falsy payment ids
never match; otherwise look for an order carrying the id with payment status
`Paid`. -/
def isPaymentAlreadyProcessed (db : DB) (paymentId : Option String) : Bool :=
  match paymentId with
  | none => false
  | some s => if s = "" then false else hasPaidOrderWithPid db.orders s

/-- `reduceStockAfterPayment`'s per-item loop (payment.js lines 29-44): for each
item with a product reference whose product resolves, set
`stock := Math.max(0, stock - (quantity || 1))` and save the product. -/
def reduceItems : List Product → List OrderItem → List Product
  | ps, [] => ps
  | ps, it :: rest =>
      match it.product with
      | none => reduceItems ps rest
      | some pid =>
          match findProduct ps pid with
          | none => reduceItems ps rest
          | some _ =>
              reduceItems
                (updateFirstBy (fun p => decide (p.id = pid))
                  (fun p => { p with stock := max 0 (p.stock - (qtyOr1 it.quantity : Int)) }) ps)
                rest

/-- Marking an order's stock as reduced (`order.stockReduced = true` before the
save in `reduceStockAfterPayment`). -/
def setStockReduced (o : Order) : Order := { o with stockReduced := true }

/-- `reduceStockAfterPayment` (payment.js lines 22-57): no-op returning `false`
when the order is missing or its `stockReduced` flag is already set; otherwise
decrement stock for every resolved line item, then set `stockReduced := true`
on the order and return `true`. -/
def reduceStockAfterPayment (db : DB) (oid : Nat) : DB × Bool :=
  match findOrder db.orders oid with
  | none => (db, false)
  | some o =>
      if o.stockReduced then (db, false)
      else
        let db1 := { db with products := reduceItems db.products o.items }
        let db2 := updateOrderDB db1 oid setStockReduced
        (db2, true)

/-- `createPaymentRecord` (payment.js lines 62-90): insert a ledger entry; a
duplicate-key failure on the sparse unique `razorpayPaymentId` index is treated
as a success no-op. -/
def createPaymentRecord (db : DB) (p : Payment) : DB :=
  match p.razorpayPaymentId with
  | some s =>
      if hasPaymentWithPid db.payments s then db
      else { db with payments := db.payments ++ [p] }
  | none => { db with payments := db.payments ++ [p] }

/-- Does the user already have a saved address with this pincode and house
number? -/
def hasSavedAddress (addrs : List Address) (a : Address) : Bool :=
  match addrs with
  | [] => false
  | b :: rest =>
      if b.pincode = a.pincode ∧ b.houseNo = a.houseNo then true
      else hasSavedAddress rest a

/-- `saveAddressToUserOnPaymentSuccess` (payment.js lines 93-125). -/
def saveAddressToUser (db : DB) (uid : Nat) (addr : Address) : DB :=
  if addr.pincode = "" then db
  else
    match findUser db.users uid with
    | none => db
    | some u =>
        if hasSavedAddress u.addresses addr then db
        else
          { db with
            users := updateFirstBy (fun v => decide (v.id = uid))
              (fun v =>
                { v with
                  addresses := v.addresses ++
                    [{ label := "Home", fullName := addr.fullName, phone := addr.phone,
                       houseNo := addr.houseNo, street := addr.street,
                       landmark := addr.landmark, city := addr.city, state := addr.state,
                       pincode := addr.pincode, isDefault := v.addresses.length = 0 }] })
              db.users }

/-- `Cart.findOneAndUpdate({ user }, { items: [] })`. -/
def clearCart (db : DB) (uid : Nat) : DB :=
  { db with
    carts := updateFirstBy (fun c => decide (c.user = uid)) (fun c => { c with items := [] }) db.carts }

/-- JS `a || d` on a possibly-undefined string. -/
def jsOr (a : Option String) (d : String) : String :=
  match a with
  | none => d
  | some s => if s = "" then d else s

/-- The `paymentDetails` object handed to `createOrderFromCart` /
`executePaymentTransaction`. -/
structure PaymentDetails where
  paymentId : Option String
  razorpayOrderId : Option String
  razorpaySignature : Option String
  paymentMethod : Option String
  shippingAddress : Address
deriving DecidableEq, Repr

/-- Modelled from the spec: `generateAndSaveInvoice` (pdfController, outside
the core) only attaches a document reference to the order; its content is
irrelevant to every claim, so it is modelled as a deterministic reference. -/
def invoiceRefFor (o : Order) : String := "invoice-" ++ toString o.orderNumber

/-- Attaching the generated invoice reference to the order before the final
save. -/
def attachInvoice (o : Order) : Order := { o with invoicePath := some (invoiceRefFor o) }

/-- The enrichment loop of `createOrderFromCart` (payment.js lines 152-192):
resolve each cart line into an order line with snapshotted name/price/image and
accumulate the items subtotal.  A referenced product that does not resolve
aborts with `Product not found` (thrown in the source). -/
def enrichCartItems (ps : List Product) : List CartItem → Except String (List OrderItem × Nat)
  | [] => Except.ok ([], 0)
  | item :: rest =>
      match item.product with
      | some pid =>
          match findProduct ps pid with
          | none => Except.error "Product not found"
          | some prod =>
              match enrichCartItems ps rest with
              | Except.error e => Except.error e
              | Except.ok (items, total) =>
                  Except.ok
                    ({ product := some pid, name := strOr item.name prod.name,
                       price := numOr item.price prod.price,
                       image := strOr item.image prod.firstImage,
                       quantity := qtyOr1 item.quantity,
                       size := item.size, color := item.color } :: items,
                     numOr item.price prod.price * qtyOr1 item.quantity + total)
      | none =>
          match enrichCartItems ps rest with
          | Except.error e => Except.error e
          | Except.ok (items, total) =>
              Except.ok
                ({ product := none, name := item.name, price := item.price,
                   image := item.image, quantity := qtyOr1 item.quantity,
                   size := item.size, color := item.color } :: items,
                 item.price * qtyOr1 item.quantity + total)

/-- The Order document built by `createOrderFromCart` from the enriched cart
(payment.js lines 194-215): shipping is `subtotal > 999 ? 0 : 49`, the total
is subtotal plus shipping, payment status `Paid`, order status `PAID`, one
history entry, and the order number from the document count. -/
def mkPaidOrder (db : DB) (userId : Nat) (pd : PaymentDetails)
    (eitems : List OrderItem) (subtotal : Nat) : Order :=
  { id := db.nextId, user := userId, orderNumber := db.orders.length + 1,
    items := eitems,
    totalAmount := subtotal + (if subtotal > 999 then 0 else 49),
    shippingCharge := if subtotal > 999 then 0 else 49, status := "PAID",
    paymentMethod := jsOr pd.paymentMethod "Razorpay",
    paymentStatus := "Paid", paymentId := pd.paymentId,
    razorpayOrderId := pd.razorpayOrderId,
    razorpaySignature := pd.razorpaySignature,
    upiId := getAdminUpiId db, shippingAddress := pd.shippingAddress,
    stockReduced := false,
    statusHistory := [⟨"PAID", "Order created after payment verification"⟩],
    invoicePath := none }

/-- The ledger entry inserted by `createOrderFromCart` (payment.js lines
223-239). -/
def mkPaidRecord (pd : PaymentDetails) (userId : Nat) (order : Order) : Payment :=
  { razorpayPaymentId := pd.paymentId, razorpayOrderId := pd.razorpayOrderId,
    order := some order.id, user := userId, amount := order.totalAmount,
    method := if pd.paymentMethod = some "UPI" then "UPI" else "Card",
    status := "PAID" }

/-- `createOrderFromCart` (payment.js lines 146-266): build the order from the
user's cart (`Cart is empty` when absent or empty), compute the shipping
charge and total, insert the order with payment status `Paid` and order status
`PAID`, reduce stock, insert the ledger entry (duplicate-key tolerated),
attach the invoice reference and clear the cart.  Returns the created order
document as the route reads it (for its `_id` / `orderNumber`). -/
def createOrderFromCart (db : DB) (userId : Nat) (pd : PaymentDetails) :
    Except String (DB × Order) :=
  match findCart db.carts userId with
  | none => Except.error "Cart is empty"
  | some cart =>
      if cart.items = [] then Except.error "Cart is empty"
      else
        match enrichCartItems db.products cart.items with
        | Except.error e => Except.error e
        | Except.ok (eitems, subtotal) =>
            let order := mkPaidOrder db userId pd eitems subtotal
            let db1 := { db with orders := db.orders ++ [order], nextId := db.nextId + 1 }
            let db2 := (reduceStockAfterPayment db1 order.id).1
            let db3 := createPaymentRecord db2 (mkPaidRecord pd userId order)
            let db4 := updateOrderDB db3 order.id attachInvoice
            let db5 := clearCart db4 userId
            Except.ok (db5, order)

/-- Request body of `POST /payment/verify`. -/
structure VerifyReq where
  razorpayOrderId : Option String
  razorpayPaymentId : Option String
  razorpaySignature : Option String
  shippingAddress : Address
deriving DecidableEq, Repr

inductive VerifyResult where
  | alreadyProcessed (orderId orderNumber : Nat)
  | invalidSignature
  | ok (orderId orderNumber : Nat)
  | serverError (msg : String)
deriving DecidableEq, Repr

/-- `POST /payment/verify` (payment.js lines 303-349).  `hmac` is the keyed
hash (HMAC-SHA256 in the source, abstract here); the expected signature is the
hash of `"{razorpay_order_id}|{razorpay_payment_id}"` under the shared key
secret.  Note that on a signature mismatch the route returns 400 without any
mutation — in particular without a ledger entry. -/
def verify (hmac : String → String → String) (secret : String) (db : DB) (uid : Nat)
    (req : VerifyReq) : DB × VerifyResult :=
  if isPaymentAlreadyProcessed db req.razorpayPaymentId then
    match findOrderByPid db.orders (jsStr req.razorpayPaymentId) with
    | some o => (db, VerifyResult.alreadyProcessed o.id o.orderNumber)
    | none => (db, VerifyResult.serverError "no order")
  else
    let expected := hmac secret (jsStr req.razorpayOrderId ++ "|" ++ jsStr req.razorpayPaymentId)
    if some expected ≠ req.razorpaySignature then (db, VerifyResult.invalidSignature)
    else
      match createOrderFromCart db uid
          { paymentId := req.razorpayPaymentId, razorpayOrderId := req.razorpayOrderId,
            razorpaySignature := req.razorpaySignature, paymentMethod := some "Razorpay",
            shippingAddress := req.shippingAddress } with
      | Except.error e => (db, VerifyResult.serverError e)
      | Except.ok (db1, order) =>
          (saveAddressToUser db1 uid req.shippingAddress,
           VerifyResult.ok order.id order.orderNumber)

/-- The `payload.payment.entity` of a webhook delivery, with the notes fields
the handler reads. -/
structure WebhookPayment where
  id : String
  orderId : Option String
  notesUserId : Option Nat
  notesOrderId : Option Nat
  notesAddress : Option Address
deriving DecidableEq, Repr

/-- A webhook delivery: the signature header, the raw body (the handler signs
`JSON.stringify(req.body)`), the event name and the optional payment entity. -/
structure WebhookReq where
  signature : Option String
  raw : String
  event : String
  payment : Option WebhookPayment
deriving DecidableEq, Repr

inductive WebhookResult where
  | invalidSignature
  | ack
  | ackAlready
deriving DecidableEq, Repr

/-- The Case-1 order mutation of the webhook handler: mark the pre-existing
order paid (note the source writes the out-of-enum status string `'Placed'`). -/
def webhookPaidUpdate (pid : String) (o : Order) : Order :=
  { o with paymentStatus := "Paid", paymentId := some pid, paymentMethod := "UPI",
           status := "Placed",
           statusHistory := o.statusHistory ++
             [⟨"Placed", "Payment confirmed via webhook"⟩] }

/-- `POST /payment/webhook` (payment.js lines 432-525).  Signature over the
whole raw payload with the webhook secret; on `payment.captured`: idempotency
guard, then either Case 1 (a pre-existing order referenced in the notes is
marked paid) or Case 2 (an order is created from the noted user's cart, errors
— including the duplicate-payment-id key violation — swallowed). -/
def webhook (hmac : String → String → String) (whSecret : String) (db : DB)
    (req : WebhookReq) : DB × WebhookResult :=
  if some (hmac whSecret req.raw) ≠ req.signature then (db, WebhookResult.invalidSignature)
  else
    match req.payment with
    | none => (db, WebhookResult.ack)
    | some pay =>
        if req.event ≠ "payment.captured" then (db, WebhookResult.ack)
        else if isPaymentAlreadyProcessed db (some pay.id) then (db, WebhookResult.ackAlready)
        else
          match pay.notesOrderId with
          | some oid =>
              match findOrder db.orders oid with
              | none => (db, WebhookResult.ack)
              | some o =>
                  if o.paymentStatus = "Paid" then (db, WebhookResult.ack)
                  else
                    let db1 := updateOrderDB db oid (webhookPaidUpdate pay.id)
                    let db2 :=
                      match pay.notesUserId with
                      | some uid => saveAddressToUser db1 uid o.shippingAddress
                      | none => db1
                    (db2, WebhookResult.ack)
          | none =>
              match pay.notesUserId with
              | none => (db, WebhookResult.ack)
              | some uid =>
                  match createOrderFromCart db uid
                      { paymentId := some pay.id, razorpayOrderId := pay.orderId,
                        razorpaySignature := none, paymentMethod := some "Razorpay",
                        shippingAddress := (pay.notesAddress).getD emptyAddress } with
                  | Except.error _ => (db, WebhookResult.ack)
                  | Except.ok (db1, _) =>
                      (saveAddressToUser db1 uid ((pay.notesAddress).getD emptyAddress),
                       WebhookResult.ack)

/-- Request body of `POST /payment/verify-upi`. -/
structure UpiReq where
  razorpayOrderId : Option String
  razorpayPaymentId : Option String
  razorpaySignature : Option String
  orderId : Nat
deriving DecidableEq, Repr

inductive UpiResult where
  | alreadyProcessed (orderId orderNumber : Nat)
  | invalidSignature
  | orderNotFound
  | alreadyPaid (orderId orderNumber : Nat)
  | ok (orderId orderNumber : Nat)
  | serverError (msg : String)
deriving DecidableEq, Repr

/-- The order mutation of a successful `verify-upi` call: mark the order paid
with the razorpay references. -/
def upiPaidUpdate (req : UpiReq) (o : Order) : Order :=
  { o with paymentStatus := "Paid", paymentId := req.razorpayPaymentId,
           razorpaySignature := req.razorpaySignature, paymentMethod := "UPI",
           status := "PAID",
           statusHistory := o.statusHistory ++
             [⟨"PAID", "Payment verified via Razorpay UPI"⟩] }

/-- `POST /payment/verify-upi` (payment.js lines 589-704): Buy-Now flow on a
pre-existing order.  A signature mismatch records a `FAILED` ledger entry
(amount 0) before rejecting; a valid one marks the order paid, reduces stock,
records a `PAID` ledger entry, saves the address and attaches the invoice. -/
def verifyUpi (hmac : String → String → String) (secret : String) (db : DB) (uid : Nat)
    (req : UpiReq) : DB × UpiResult :=
  if isPaymentAlreadyProcessed db req.razorpayPaymentId then
    match findOrderByPid db.orders (jsStr req.razorpayPaymentId) with
    | some o => (db, UpiResult.alreadyProcessed o.id o.orderNumber)
    | none => (db, UpiResult.serverError "no order")
  else
    let expected := hmac secret (jsStr req.razorpayOrderId ++ "|" ++ jsStr req.razorpayPaymentId)
    if some expected ≠ req.razorpaySignature then
      (createPaymentRecord db
        { razorpayPaymentId := req.razorpayPaymentId,
          razorpayOrderId := req.razorpayOrderId, order := some req.orderId,
          user := uid, amount := 0, method := "UPI", status := "FAILED" },
       UpiResult.invalidSignature)
    else
      match findOrder db.orders req.orderId with
      | none => (db, UpiResult.orderNotFound)
      | some o =>
          if o.paymentStatus = "Paid" then (db, UpiResult.alreadyPaid o.id o.orderNumber)
          else
            let db1 := updateOrderDB db req.orderId (upiPaidUpdate req)
            let db2 := (reduceStockAfterPayment db1 req.orderId).1
            let db3 := createPaymentRecord db2
              { razorpayPaymentId := req.razorpayPaymentId,
                razorpayOrderId := req.razorpayOrderId, order := some o.id,
                user := uid, amount := o.totalAmount, method := "UPI", status := "PAID" }
            let db4 := saveAddressToUser db3 uid o.shippingAddress
            let db5 := updateOrderDB db4 req.orderId attachInvoice
            (db5, UpiResult.ok o.id o.orderNumber)

inductive CodResult where
  | missingOrderId
  | notFound
  | unauthorized
  | codLimit
  | ok (orderId orderNumber : Nat)
deriving DecidableEq, Repr

/-- The order mutation of a successful COD placement. -/
def codUpdate (o : Order) : Order :=
  { o with paymentMethod := "COD", paymentStatus := "Pending", status := "PLACED",
           statusHistory := o.statusHistory ++
             [⟨"PLACED", "Cash on Delivery order placed"⟩] }

/-- `POST /payment/cod` (payment.js lines 354-428): validates existence,
ownership and the 5000-rupee ceiling before mutating; on success flips the
order to `COD`/`Pending`/`PLACED`, appends history, attaches the invoice,
saves the shipping address to the user and clears the cart.  It never touches
product stock and never inserts a ledger entry. -/
def cod (db : DB) (uid : Nat) (orderId : Option Nat) : DB × CodResult :=
  match orderId with
  | none => (db, CodResult.missingOrderId)
  | some oid =>
      match findOrder db.orders oid with
      | none => (db, CodResult.notFound)
      | some o =>
          if o.user ≠ uid then (db, CodResult.unauthorized)
          else if o.totalAmount > 5000 then (db, CodResult.codLimit)
          else
            let db1 := updateOrderDB db oid codUpdate
            let db2 := updateOrderDB db1 oid attachInvoice
            let db3 := saveAddressToUser db2 uid o.shippingAddress
            let db4 := clearCart db3 uid
            (db4, CodResult.ok o.id o.orderNumber)

/-- The order mutation of the admin status route: write the requested status,
optionally the payment status, and append history. -/
def adminStatusSet (status note : String) (paymentStatus : Option String)
    (o : Order) : Order :=
  { o with status := status, paymentStatus := paymentStatus.getD o.paymentStatus,
           statusHistory := o.statusHistory ++ [⟨status, note⟩] }

/-- `PUT /orders/:id/status` (orders.js lines 169-184, admin): writes the
requested status unconditionally (no transition guard in the source), sets the
payment status when supplied, and appends a history entry. -/
def adminUpdateStatus (db : DB) (oid : Nat) (status : String) (note : String)
    (paymentStatus : Option String) : DB × Bool :=
  match findOrder db.orders oid with
  | none => (db, false)
  | some _ => (updateOrderDB db oid (adminStatusSet status note paymentStatus), true)

/-- The per-item restore loop of `cancelOrderWithStockRestore`
(transactions.js lines 184-195): unconditional `$inc` by the item quantity on
the item's product. -/
def restoreItems : List Product → List OrderItem → List Product
  | ps, [] => ps
  | ps, it :: rest =>
      match it.product with
      | none => restoreItems ps rest
      | some pid =>
          restoreItems
            (updateFirstBy (fun p => decide (p.id = pid))
              (fun p => { p with stock := p.stock + (qtyOr1 it.quantity : Int) }) ps)
            rest

/-- The order mutation of a cancellation: set status `CANCELLED` and append
history with the (defaulted) reason. -/
def cancelUpdate (reason : String) (o : Order) : Order :=
  { o with status := "CANCELLED",
           statusHistory := o.statusHistory ++
             [⟨"CANCELLED", strOr reason "Order cancelled"⟩] }

/-- `cancelOrderWithStockRestore` (transactions.js lines 167-215): reject an
unknown or already `CANCELLED` order; restore stock only when `stockReduced`
is set and the order has items; set status `CANCELLED` and append history. -/
def cancelOrderWithStockRestore (db : DB) (oid : Nat) (reason : String) :
    Except String DB :=
  match findOrder db.orders oid with
  | none => Except.error "Order not found"
  | some o =>
      if o.status = "CANCELLED" then Except.error "Order is already cancelled"
      else
        let db1 :=
          if o.stockReduced ∧ o.items ≠ [] then
            { db with products := restoreItems db.products o.items }
          else db
        Except.ok (updateOrderDB db1 oid (cancelUpdate reason))

inductive CancelResult where
  | notFound
  | accessDenied
  | cannotCancel
  | ok
  | err (msg : String)
deriving DecidableEq, Repr

/-- `PUT /orders/:id/cancel` (orders.js lines 272-303): ownership check, then
the transition guard (`SHIPPED`/`DELIVERED` cannot be cancelled), then the
transactional cancellation. -/
def cancelRoute (db : DB) (uid : Nat) (isAdmin : Bool) (oid : Nat)
    (reason : Option String) : DB × CancelResult :=
  match findOrder db.orders oid with
  | none => (db, CancelResult.notFound)
  | some o =>
      if o.user ≠ uid ∧ isAdmin = false then (db, CancelResult.accessDenied)
      else if o.status = "SHIPPED" ∨ o.status = "DELIVERED" then
        (db, CancelResult.cannotCancel)
      else
        match cancelOrderWithStockRestore db oid
            (jsOr reason ("Cancelled by " ++ if isAdmin then "admin" else "user")) with
        | Except.error e => (db, CancelResult.err e)
        | Except.ok db1 => (db1, CancelResult.ok)

/-- The conditional per-item decrement loop of `executePaymentTransaction`
(transactions.js lines 105-126): `updateOne({_id, stock: {$gte: qty}},
{$inc: {stock: -qty}})` — the decrement matches only a document whose stock
covers the quantity; zero matched rows only logs a warning. -/
def condReduceItems : List Product → List OrderItem → List Product
  | ps, [] => ps
  | ps, it :: rest =>
      match it.product with
      | none => condReduceItems ps rest
      | some pid =>
          condReduceItems
            (updateFirstBy
              (fun p => decide (p.id = pid ∧ (qtyOr1 it.quantity : Int) ≤ p.stock))
              (fun p => { p with stock := p.stock - (qtyOr1 it.quantity : Int) }) ps)
            rest

/-- `executePaymentTransaction` (transactions.js lines 83-156): inside one
transaction, mark the order paid, conditionally decrement stock for each line
item (guarded by the `stockReduced` flag), and insert the ledger entry with
the duplicate-key no-op.  The retry wrapper (`withTransaction`) only re-runs
this same unit on transient storage errors, which the sequential model does
not produce. -/
def executePaymentTransaction (db : DB) (o : Order) (pd : PaymentDetails)
    (reduceStock : Bool) : DB × Order :=
  let o1 : Order :=
    { o with paymentStatus := "Paid", status := "PAID", paymentId := pd.paymentId,
             razorpayOrderId := pd.razorpayOrderId,
             razorpaySignature := pd.razorpaySignature,
             paymentMethod := jsOr pd.paymentMethod "Razorpay",
             statusHistory := o.statusHistory ++
               [⟨"PAID", "Payment verified via transaction"⟩] }
  let db1 := updateOrderDB db o.id (fun _ => o1)
  let step2 : DB × Order :=
    if reduceStock ∧ o1.stockReduced = false ∧ o1.items ≠ [] then
      let dbA := { db1 with products := condReduceItems db1.products o1.items }
      let o2 := { o1 with stockReduced := true }
      (updateOrderDB dbA o.id (fun _ => o2), o2)
    else (db1, o1)
  let db3 := createPaymentRecord step2.1
    { razorpayPaymentId := pd.paymentId, razorpayOrderId := pd.razorpayOrderId,
      order := some o.id, user := o.user, amount := o.totalAmount,
      method := jsOr pd.paymentMethod "UPI", status := "PAID" }
  (db3, step2.2)

/-- Modelled from the spec (§4.4, the legal status transitions): the order
state machine `CREATED → {PENDING, PAID, PLACED} → SHIPPED → DELIVERED`, with
`CANCELLED` reachable from any non-terminal state except `SHIPPED`; `DELIVERED`
and `CANCELLED` are terminal.  Used only to compare the code's behaviour
against the spec's machine. -/
def specLegalTransition (fromStatus toStatus : String) : Bool :=
  match fromStatus with
  | "CREATED" =>
      toStatus = "PENDING" ∨ toStatus = "PAID" ∨ toStatus = "PLACED" ∨
        toStatus = "CANCELLED"
  | "PENDING" => toStatus = "SHIPPED" ∨ toStatus = "CANCELLED"
  | "PAID" => toStatus = "SHIPPED" ∨ toStatus = "CANCELLED"
  | "PLACED" => toStatus = "SHIPPED" ∨ toStatus = "CANCELLED"
  | "SHIPPED" => toStatus = "DELIVERED"
  | _ => False

/-- A settlement trigger for the idempotency property: either a client verify
call (with the caller's user id) or a webhook delivery. -/
inductive SettleCall where
  | clientVerify (uid : Nat) (req : VerifyReq)
  | hook (req : WebhookReq)
deriving DecidableEq, Repr

inductive SettleResult where
  | v (r : VerifyResult)
  | w (r : WebhookResult)
deriving DecidableEq, Repr

/-- One settlement step: dispatch a trigger to its route handler. -/
def settleStep (hmac : String → String → String) (secret whSecret : String)
    (db : DB) : SettleCall → DB × SettleResult
  | SettleCall.clientVerify uid req =>
      let r := verify hmac secret db uid req
      (r.1, SettleResult.v r.2)
  | SettleCall.hook req =>
      let r := webhook hmac whSecret db req
      (r.1, SettleResult.w r.2)

/-- Run a sequence of settlement calls, collecting the per-call results. -/
def runCalls (hmac : String → String → String) (secret whSecret : String)
    (db : DB) : List SettleCall → DB × List SettleResult
  | [] => (db, [])
  | c :: rest =>
      let s := settleStep hmac secret whSecret db c
      let r := runCalls hmac secret whSecret s.1 rest
      (r.1, s.2 :: r.2)

/-- A call carries the external payment id `pid`. -/
def carriesPid (pid : String) : SettleCall → Prop
  | SettleCall.clientVerify _ req => req.razorpayPaymentId = some pid
  | SettleCall.hook req => ∃ pay, req.payment = some pay ∧ pay.id = pid

/-- Number of orders bearing external payment id `s`. -/
def countOrdersPid : List Order → String → Nat
  | [], _ => 0
  | o :: rest, s =>
      (if o.paymentId = some s then 1 else 0) + countOrdersPid rest s

/-- Number of ledger entries bearing external payment id `s`. -/
def countPaymentsPid : List Payment → String → Nat
  | [], _ => 0
  | p :: rest, s =>
      (if p.razorpayPaymentId = some s then 1 else 0) + countPaymentsPid rest s

/-- Total quantity the items of an order request from product `pid`
(the amount a fully-applied settlement decrement takes from it). -/
def needOf : List OrderItem → Nat → Nat
  | [], _ => 0
  | it :: rest, pid =>
      (if it.product = some pid then qtyOr1 it.quantity else 0) + needOf rest pid

/-- A concrete keyed hash used to instantiate the abstract HMAC in concrete
evaluations. -/
def hmacConcat : String → String → String := fun key msg => key ++ ":" ++ msg

/-- A concrete shipping address used in concrete evaluations. -/
def wAddr : Address :=
  { emptyAddress with fullName := "A", phone := "9", houseNo := "H1", pincode := "500001" }

/-- A concrete single-product inventory row. -/
def wProd (stock : Int) : Product :=
  { id := 1, name := "S", price := 500, firstImage := "", stock := stock }

/-- A concrete order over product 1 with quantity 2. -/
def wOrderBase : Order :=
  { id := 1, user := 7, orderNumber := 1,
    items := [⟨some 1, "S", 500, "", 2, "", ""⟩],
    totalAmount := 1000, shippingCharge := 0, status := "PAID",
    paymentMethod := "UPI", paymentStatus := "Paid", paymentId := some "px",
    razorpayOrderId := none, razorpaySignature := none, upiId := "",
    shippingAddress := wAddr, stockReduced := false, statusHistory := [],
    invoicePath := none }

/-- A concrete cart for user 7. -/
def wCart : Cart := { user := 7, items := [⟨some 1, "S", 500, "", 2, "M", "R"⟩] }

/-- A concrete database builder. -/
def wDB (os : List Order) (ps : List Product) (pays : List Payment) (cs : List Cart)
    (us : List User) : DB :=
  { orders := os, payments := pays, products := ps, carts := cs, users := us,
    upiSetting := none, nextId := 50 }

/-- A verify request for payment id `p1` whose proof matches the keyed hash of
`"ro1|p1"` under key `k` (for the concrete hash `hmacConcat`). -/
def wReqGood : VerifyReq :=
  { razorpayOrderId := some "ro1", razorpayPaymentId := some "p1",
    razorpaySignature := some (hmacConcat "k" "ro1|p1"), shippingAddress := wAddr }

/-- Concrete database for a first settlement: empty orders and ledger, product
1 in stock 10, a cart for user 7. -/
def wDBc1 : DB := wDB [] [wProd 10] [] [wCart] [⟨7, []⟩]

/-- A concrete pre-existing unpaid order (the Buy-Now shape a webhook
settlement targets through its notes). -/
def wHookOrder : Order :=
  { wOrderBase with status := "CREATED", paymentMethod := "Pending",
                    paymentStatus := "Pending", paymentId := none }

/-- A valid `payment.captured` webhook delivery for payment id `p1` whose
notes reference the pre-existing order 1 (signature matches the keyed hash of
the raw payload under key `w` for the concrete hash `hmacConcat`). -/
def wHookReq : WebhookReq :=
  { signature := some (hmacConcat "w" "raw"), raw := "raw",
    event := "payment.captured",
    payment := some { id := "p1", orderId := none, notesUserId := none,
                      notesOrderId := some 1, notesAddress := none } }

/-- Concrete database for a webhook-first settlement: the pre-existing unpaid
order and an empty ledger. -/
def wDBhook : DB := wDB [wHookOrder] [] [] [] []

/-- A concrete cart with a single ad-hoc line of price 999 (items subtotal
exactly at the free-shipping threshold). -/
def wCart999 : Cart := { user := 7, items := [⟨none, "K", 999, "", 1, "", ""⟩] }

/-- A concrete cart with a single ad-hoc line of price 1200. -/
def wCart1200 : Cart := { user := 7, items := [⟨none, "K", 1200, "", 1, "", ""⟩] }

/-- Concrete payment details for direct `createOrderFromCart` evaluations. -/
def wPd : PaymentDetails :=
  { paymentId := some "p1", razorpayOrderId := some "ro1", razorpaySignature := some "sg",
    paymentMethod := some "Razorpay", shippingAddress := wAddr }

/-- A concrete order line requesting quantity 2 of product 1. -/
def wItem2 : OrderItem := ⟨some 1, "S", 500, "", 2, "", ""⟩

/-- Concrete database: one unsettled order over product 1 (qty 2) but only one
unit in stock. -/
def wDB2 : DB := wDB [wOrderBase] [wProd 1] [] [] []

/-- Concrete database for signature-rejection runs: a cart but no orders and
an empty ledger. -/
def wDB3 : DB := wDB [] [] [] [wCart] [⟨7, []⟩]

/-- A verify request whose proof does not match the keyed hash. -/
def wReqBad : VerifyReq :=
  { razorpayOrderId := some "ro1", razorpayPaymentId := some "p1",
    razorpaySignature := some "bad", shippingAddress := wAddr }

/-- A verify-upi request whose proof does not match the keyed hash. -/
def wUpiBad : UpiReq :=
  { razorpayOrderId := some "ro1", razorpayPaymentId := some "p1",
    razorpaySignature := some "bad", orderId := 1 }

/-- Concrete database with a delivered order. -/
def wDB6 : DB := wDB [{ wOrderBase with status := "DELIVERED" }] [] [] [] []

/-- Concrete database with a shipped order. -/
def wDB6s : DB := wDB [{ wOrderBase with status := "SHIPPED" }] [] [] [] []

/-- Concrete database whose cart has an items subtotal of 1200. -/
def wDB1200 : DB := wDB [] [] [] [wCart1200] [⟨7, []⟩]

/-- Concrete database whose cart has an items subtotal of exactly 999. -/
def wDB999 : DB := wDB [] [] [] [wCart999] [⟨7, []⟩]

/-- The order produced by settling the 1200-subtotal cart. -/
def wOrder1200 : Order :=
  match createOrderFromCart wDB1200 7 wPd with
  | Except.ok x => x.2
  | Except.error _ => wOrderBase

section Lemmas

variable {α : Type}

theorem updateFirstBy_none {m : α → Bool} {f : α → α} {l : List α}
    (h : ∀ x ∈ l, m x = false) : updateFirstBy m f l = l := by
  induction l with
  | nil => rfl
  | cons x rest ih =>
      have hx := h x (List.mem_cons_self x rest)
      simp only [updateFirstBy, hx, Bool.false_eq_true, if_false]
      rw [ih (fun y hy => h y (List.mem_cons_of_mem x hy))]

theorem updateFirstBy_append_none {m : α → Bool} {f : α → α} {l₁ l₂ : List α}
    (h : ∀ x ∈ l₁, m x = false) :
    updateFirstBy m f (l₁ ++ l₂) = l₁ ++ updateFirstBy m f l₂ := by
  induction l₁ with
  | nil => rfl
  | cons x rest ih =>
      have hx := h x (List.mem_cons_self x rest)
      simp only [List.cons_append, updateFirstBy, hx, Bool.false_eq_true, if_false,
        List.append_eq]
      rw [ih (fun y hy => h y (List.mem_cons_of_mem x hy))]

theorem mem_updateFirstBy {m : α → Bool} {f : α → α} {l : List α} {x : α}
    (hx : x ∈ updateFirstBy m f l) :
    x ∈ l ∨ ∃ y, y ∈ l ∧ m y = true ∧ x = f y := by
  induction l with
  | nil => exact absurd hx (List.not_mem_nil x)
  | cons y rest ih =>
      by_cases hy : m y = true
      · simp only [updateFirstBy, hy, if_true] at hx
        rcases List.mem_cons.mp hx with h | h
        · exact Or.inr ⟨y, List.mem_cons_self y rest, hy, h⟩
        · exact Or.inl (List.mem_cons_of_mem y h)
      · simp only [updateFirstBy, hy, if_false] at hx
        rcases List.mem_cons.mp hx with h | h
        · exact Or.inl (h ▸ List.mem_cons_self y rest)
        · rcases ih h with h' | ⟨z, hz, hmz, hxz⟩
          · exact Or.inl (List.mem_cons_of_mem y h')
          · exact Or.inr ⟨z, List.mem_cons_of_mem y hz, hmz, hxz⟩

theorem forall_updateFirstBy {P : α → Prop} {m : α → Bool} {f : α → α} {l : List α}
    (hl : ∀ x ∈ l, P x) (hf : ∀ x, P x → m x = true → P (f x)) :
    ∀ x ∈ updateFirstBy m f l, P x := by
  intro x hx
  rcases mem_updateFirstBy hx with h | ⟨y, hy, hmy, hxy⟩
  · exact hl x h
  · exact hxy ▸ hf y (hl y hy) hmy

theorem findOrder_append_fresh {l : List Order} {o : Order}
    (h : ∀ x ∈ l, x.id ≠ o.id) : findOrder (l ++ [o]) o.id = some o := by
  induction l with
  | nil => simp [findOrder]
  | cons x rest ih =>
      have hx := h x (List.mem_cons_self x rest)
      simp only [List.cons_append, findOrder, hx, if_false]
      exact ih (fun y hy => h y (List.mem_cons_of_mem x hy))

theorem findOrder_updateFirstBy {l : List Order} {oid : Nat} (f : Order → Order)
    (hf : ∀ o, (f o).id = o.id) :
    findOrder (updateFirstBy (fun o => decide (o.id = oid)) f l) oid =
      (findOrder l oid).map f := by
  induction l with
  | nil => rfl
  | cons o rest ih =>
      by_cases ho : o.id = oid
      · simp only [updateFirstBy, decide_eq_true_eq, ho, if_true, findOrder, hf o,
          Option.map_some']
      · simp only [updateFirstBy, decide_eq_true_eq, ho, if_false, findOrder]
        rw [ih]

theorem countOrdersPid_append (l₁ l₂ : List Order) (s : String) :
    countOrdersPid (l₁ ++ l₂) s = countOrdersPid l₁ s + countOrdersPid l₂ s := by
  induction l₁ with
  | nil => simp [countOrdersPid]
  | cons o rest ih =>
      simp only [List.cons_append, countOrdersPid, List.append_eq, ih]; omega

theorem countOrdersPid_eq_zero {l : List Order} {s : String} :
    countOrdersPid l s = 0 ↔ ∀ o ∈ l, o.paymentId ≠ some s := by
  induction l with
  | nil => simp [countOrdersPid]
  | cons o rest ih =>
      by_cases ho : o.paymentId = some s
      · simp [countOrdersPid, ho]
      · simp [countOrdersPid, ho, ih]

theorem countOrdersPid_updateFirstBy {l : List Order} {s : String} {m : Order → Bool}
    {f : Order → Order} (hf : ∀ o, (f o).paymentId = o.paymentId) :
    countOrdersPid (updateFirstBy m f l) s = countOrdersPid l s := by
  induction l with
  | nil => rfl
  | cons o rest ih =>
      by_cases ho : m o = true
      · simp only [updateFirstBy, ho, if_true, countOrdersPid, hf o]
      · simp only [updateFirstBy, ho, if_false, countOrdersPid, ih]

theorem countPaymentsPid_append (l₁ l₂ : List Payment) (s : String) :
    countPaymentsPid (l₁ ++ l₂) s = countPaymentsPid l₁ s + countPaymentsPid l₂ s := by
  induction l₁ with
  | nil => simp [countPaymentsPid]
  | cons p rest ih =>
      simp only [List.cons_append, countPaymentsPid, List.append_eq, ih]; omega

theorem countPaymentsPid_eq_zero {l : List Payment} {s : String} :
    countPaymentsPid l s = 0 ↔ ∀ p ∈ l, p.razorpayPaymentId ≠ some s := by
  induction l with
  | nil => simp [countPaymentsPid]
  | cons p rest ih =>
      by_cases hp : p.razorpayPaymentId = some s
      · simp [countPaymentsPid, hp]
      · simp [countPaymentsPid, hp, ih]

theorem hasPaymentWithPid_eq_false {l : List Payment} {s : String} :
    hasPaymentWithPid l s = false ↔ ∀ p ∈ l, p.razorpayPaymentId ≠ some s := by
  induction l with
  | nil => simp [hasPaymentWithPid]
  | cons p rest ih =>
      by_cases hp : p.razorpayPaymentId = some s
      · simp [hasPaymentWithPid, hp]
      · simp [hasPaymentWithPid, hp, ih]

theorem findOrderByPid_append_left_zero {l₁ l₂ : List Order} {s : String}
    (h : countOrdersPid l₁ s = 0) :
    findOrderByPid (l₁ ++ l₂) s = findOrderByPid l₂ s := by
  induction l₁ with
  | nil => rfl
  | cons o rest ih =>
      have ho : o.paymentId ≠ some s :=
        countOrdersPid_eq_zero.mp h o (List.mem_cons_self o rest)
      have hrest : countOrdersPid rest s = 0 :=
        countOrdersPid_eq_zero.mpr fun x hx =>
          countOrdersPid_eq_zero.mp h x (List.mem_cons_of_mem o hx)
      simp only [List.cons_append, findOrderByPid, ho, if_false]
      exact ih hrest

theorem hasPaidOrderWithPid_of_find {l : List Order} {s : String} {o : Order}
    (h : findOrderByPid l s = some o) (hp : o.paymentStatus = "Paid") :
    hasPaidOrderWithPid l s = true := by
  induction l with
  | nil => simp [findOrderByPid] at h
  | cons x rest ih =>
      by_cases hx : x.paymentId = some s
      · simp only [findOrderByPid, hx, if_true, Option.some.injEq] at h
        subst h
        simp [hasPaidOrderWithPid, hx, hp]
      · simp only [findOrderByPid, hx, if_false] at h
        have : ¬(x.paymentId = some s ∧ x.paymentStatus = "Paid") := fun hc => hx hc.1
        simp only [hasPaidOrderWithPid, this, if_false]
        exact ih h

theorem hasPaidOrderWithPid_false_of_zero {l : List Order} {s : String}
    (h : countOrdersPid l s = 0) : hasPaidOrderWithPid l s = false := by
  induction l with
  | nil => rfl
  | cons o rest ih =>
      have ho : o.paymentId ≠ some s :=
        countOrdersPid_eq_zero.mp h o (List.mem_cons_self o rest)
      have hrest : countOrdersPid rest s = 0 :=
        countOrdersPid_eq_zero.mpr fun x hx =>
          countOrdersPid_eq_zero.mp h x (List.mem_cons_of_mem o hx)
      have : ¬(o.paymentId = some s ∧ o.paymentStatus = "Paid") := fun hc => ho hc.1
      simp only [hasPaidOrderWithPid, this, if_false]
      exact ih hrest

theorem findProduct_eq_none {ps : List Product} {pid : Nat} :
    findProduct ps pid = none ↔ ∀ p ∈ ps, p.id ≠ pid := by
  induction ps with
  | nil => simp [findProduct]
  | cons p rest ih =>
      by_cases hp : p.id = pid
      · simp [findProduct, hp]
      · simp [findProduct, hp, ih]

theorem updateFirstBy_eq_map_of_nodup {ps : List Product} {pid : Nat}
    {f : Product → Product} (hnd : (ps.map fun p => p.id).Nodup) :
    updateFirstBy (fun p => decide (p.id = pid)) f ps =
      ps.map (fun p => if p.id = pid then f p else p) := by
  induction ps with
  | nil => rfl
  | cons p rest ih =>
      rcases List.nodup_cons.mp hnd with ⟨hnot, hrest⟩
      by_cases hp : p.id = pid
      · simp only [updateFirstBy, decide_eq_true_eq, hp, if_true, List.map_cons]
        have hall : ∀ x ∈ rest, (if x.id = pid then f x else x) = x := by
          intro x hx
          have hne : x.id ≠ pid := by
            intro hc
            apply hnot
            have : x.id ∈ rest.map fun p => p.id := List.mem_map_of_mem (fun p => p.id) hx
            rw [hc, ← hp] at this
            exact this
          simp [hne]
        rw [List.map_congr_left hall]
        simp
      · simp only [updateFirstBy, decide_eq_true_eq, hp, if_false, List.map_cons]
        rw [ih hrest]

theorem map_id_preserved {ps : List Product} (h : Product → Product)
    (hid : ∀ p, (h p).id = p.id) :
    ((ps.map h).map fun p => p.id) = ps.map fun p => p.id := by
  rw [List.map_map]
  exact List.map_congr_left fun p _ => hid p

/-- When every product can cover the full requested quantity, the clamped
settlement decrement subtracts exactly the requested totals. -/
theorem reduceItems_eq_map {items : List OrderItem} :
    ∀ {ps : List Product}, ((ps.map fun p => p.id).Nodup) →
    (∀ p ∈ ps, (needOf items p.id : Int) ≤ p.stock) →
    reduceItems ps items =
      ps.map (fun p => { p with stock := p.stock - (needOf items p.id : Int) }) := by
  induction items with
  | nil =>
      intro ps _ _
      simp only [reduceItems, needOf, Nat.cast_zero, sub_zero]
      exact (List.map_id ps).symm
  | cons it rest ih =>
      intro ps hnd hle
      cases hprod : it.product with
      | none =>
          have hneed : ∀ n : Nat, needOf (it :: rest) n = needOf rest n := by
            intro n
            simp [needOf, hprod]
          simp only [reduceItems, hprod]
          rw [ih hnd (fun p hp => (hneed p.id) ▸ hle p hp)]
          exact List.map_congr_left fun p _ => by rw [hneed p.id]
      | some pid =>
          have hneedPid : needOf (it :: rest) pid = qtyOr1 it.quantity + needOf rest pid := by
            simp [needOf, hprod]
          have hneed' : ∀ n : Nat, n ≠ pid → needOf (it :: rest) n = needOf rest n := by
            intro n hn
            have : ¬(some pid = some n) := fun hc =>
              hn (Option.some.injEq pid n ▸ hc).symm
            simp [needOf, hprod, this]
          cases hfind : findProduct ps pid with
          | none =>
              have hall := findProduct_eq_none.mp hfind
              simp only [reduceItems, hprod, hfind]
              rw [ih hnd (fun p hp => (hneed' p.id (hall p hp)) ▸ hle p hp)]
              exact List.map_congr_left fun p hp => by rw [hneed' p.id (hall p hp)]
          | some prod =>
              simp only [reduceItems, hprod, hfind]
              rw [updateFirstBy_eq_map_of_nodup hnd]
              have hmax : ∀ p ∈ ps,
                  (if p.id = pid then
                      { p with stock := max 0 (p.stock - (qtyOr1 it.quantity : Int)) }
                    else p) =
                  (if p.id = pid then
                      { p with stock := p.stock - (qtyOr1 it.quantity : Int) }
                    else p) := by
                intro p hp
                by_cases hpd : p.id = pid
                · simp only [hpd, if_true]
                  have h1 := hle p hp
                  rw [hpd, hneedPid] at h1
                  have h2 : (0 : Int) ≤ p.stock - (qtyOr1 it.quantity : Int) := by
                    push_cast at h1
                    omega
                  rw [max_eq_right h2]
                · simp [hpd]
              rw [List.map_congr_left hmax]
              have hid : ∀ p : Product,
                  ((if p.id = pid then
                      { p with stock := p.stock - (qtyOr1 it.quantity : Int) }
                    else p) : Product).id = p.id := by
                intro p
                by_cases hpd : p.id = pid <;> simp [hpd]
              have hnd' := (map_id_preserved _ hid) ▸ hnd
              have hle' : ∀ p' ∈ ps.map
                  (fun p => if p.id = pid then
                      { p with stock := p.stock - (qtyOr1 it.quantity : Int) }
                    else p),
                  (needOf rest p'.id : Int) ≤ p'.stock := by
                intro p' hp'
                rcases List.mem_map.mp hp' with ⟨p, hp, hpe⟩
                subst hpe
                by_cases hpd : p.id = pid
                · have h1 := hle p hp
                  rw [hpd, hneedPid] at h1
                  simp only [hpd, if_true]
                  show (needOf rest pid : Int) ≤ p.stock - (qtyOr1 it.quantity : Int)
                  push_cast at h1 ⊢
                  omega
                · have h1 := hle p hp
                  rw [hneed' p.id hpd] at h1
                  simp only [hpd, if_false]
                  exact h1
              rw [ih hnd' hle', List.map_map]
              refine List.map_congr_left fun p hp => ?_
              by_cases hpd : p.id = pid
              · simp only [Function.comp, hpd, if_true]
                rw [hneedPid]
                push_cast
                congr 1
                omega
              · simp only [Function.comp, hpd, if_false]
                rw [hneed' p.id hpd]

/-- The unconditional cancellation restore adds back exactly the requested
totals. -/
theorem restoreItems_eq_map {items : List OrderItem} :
    ∀ {ps : List Product}, ((ps.map fun p => p.id).Nodup) →
    restoreItems ps items =
      ps.map (fun p => { p with stock := p.stock + (needOf items p.id : Int) }) := by
  induction items with
  | nil =>
      intro ps _
      simp only [restoreItems, needOf, Nat.cast_zero, add_zero]
      exact (List.map_id ps).symm
  | cons it rest ih =>
      intro ps hnd
      cases hprod : it.product with
      | none =>
          have hneed : ∀ n : Nat, needOf (it :: rest) n = needOf rest n := by
            intro n
            simp [needOf, hprod]
          simp only [restoreItems, hprod]
          rw [ih hnd]
          exact List.map_congr_left fun p _ => by rw [hneed p.id]
      | some pid =>
          have hneedPid : needOf (it :: rest) pid = qtyOr1 it.quantity + needOf rest pid := by
            simp [needOf, hprod]
          have hneed' : ∀ n : Nat, n ≠ pid → needOf (it :: rest) n = needOf rest n := by
            intro n hn
            have : ¬(some pid = some n) := fun hc =>
              hn (Option.some.injEq pid n ▸ hc).symm
            simp [needOf, hprod, this]
          simp only [restoreItems, hprod]
          rw [updateFirstBy_eq_map_of_nodup hnd]
          have hid : ∀ p : Product,
              ((if p.id = pid then
                  { p with stock := p.stock + (qtyOr1 it.quantity : Int) }
                else p) : Product).id = p.id := by
            intro p
            by_cases hpd : p.id = pid <;> simp [hpd]
          have hnd' := (map_id_preserved _ hid) ▸ hnd
          rw [ih hnd', List.map_map]
          refine List.map_congr_left fun p hp => ?_
          by_cases hpd : p.id = pid
          · simp only [Function.comp, hpd, if_true]
            rw [hneedPid]
            push_cast
            congr 1
            omega
          · simp only [Function.comp, hpd, if_false]
            rw [hneed' p.id hpd]

/-- The clamped decrement never produces a negative stock. -/
theorem reduceItems_nonneg {items : List OrderItem} :
    ∀ {ps : List Product}, (∀ p ∈ ps, 0 ≤ p.stock) →
    ∀ p ∈ reduceItems ps items, 0 ≤ p.stock := by
  induction items with
  | nil => intro ps h; exact h
  | cons it rest ih =>
      intro ps h
      cases hprod : it.product with
      | none => simp only [reduceItems, hprod]; exact ih h
      | some pid =>
          cases hfind : findProduct ps pid with
          | none => simp only [reduceItems, hprod, hfind]; exact ih h
          | some prod =>
              simp only [reduceItems, hprod, hfind]
              exact ih (forall_updateFirstBy h fun p _ _ => le_max_left 0 _)

/-- The conditional (`$gte`-guarded) decrement never produces a negative
stock. -/
theorem condReduceItems_nonneg {items : List OrderItem} :
    ∀ {ps : List Product}, (∀ p ∈ ps, 0 ≤ p.stock) →
    ∀ p ∈ condReduceItems ps items, 0 ≤ p.stock := by
  induction items with
  | nil => intro ps h; exact h
  | cons it rest ih =>
      intro ps h
      cases hprod : it.product with
      | none => simp only [condReduceItems, hprod]; exact ih h
      | some pid =>
          simp only [condReduceItems, hprod]
          refine ih (forall_updateFirstBy h fun p _ hm => ?_)
          have hq : (qtyOr1 it.quantity : Int) ≤ p.stock :=
            (decide_eq_true_eq.mp hm).2
          simpa using sub_nonneg.mpr hq

theorem mem_updateFirstBy_of_ne_key (key : α → Nat) {k : Nat} {f : α → α} {l : List α}
    {x : α} (hx : x ∈ updateFirstBy (fun y => decide (key y = k)) f l)
    (hf : ∀ x, key (f x) = key x) (hne : key x ≠ k) :
    x ∈ l := by
  rcases mem_updateFirstBy hx with h | ⟨y, hy, hmy, hxy⟩
  · exact h
  · exact absurd (hxy ▸ (hf y).trans (decide_eq_true_eq.mp hmy)) hne

theorem hasPaidOrderWithPid_exists {l : List Order} {s : String}
    (h : hasPaidOrderWithPid l s = true) :
    ∃ o, o ∈ l ∧ o.paymentId = some s ∧ o.paymentStatus = "Paid" := by
  induction l with
  | nil => simp [hasPaidOrderWithPid] at h
  | cons o rest ih =>
      by_cases ho : o.paymentId = some s ∧ o.paymentStatus = "Paid"
      · exact ⟨o, List.mem_cons_self o rest, ho⟩
      · simp only [hasPaidOrderWithPid, ho, if_false] at h
        rcases ih h with ⟨o', ho', h1, h2⟩
        exact ⟨o', List.mem_cons_of_mem o ho', h1, h2⟩

theorem findProduct_mem {ps : List Product} {pid : Nat} {p : Product}
    (h : findProduct ps pid = some p) : p ∈ ps ∧ p.id = pid := by
  induction ps with
  | nil => simp [findProduct] at h
  | cons x rest ih =>
      by_cases hx : x.id = pid
      · simp only [findProduct, hx, if_true, Option.some.injEq] at h
        exact ⟨h ▸ List.mem_cons_self x rest, h ▸ hx⟩
      · simp only [findProduct, hx, if_false] at h
        rcases ih h with ⟨h1, h2⟩
        exact ⟨List.mem_cons_of_mem x h1, h2⟩

theorem findProduct_of_mem_nodup {ps : List Product} {pid : Nat} {x : Product}
    (hnd : (ps.map fun p => p.id).Nodup) (hx : x ∈ ps) (hid : x.id = pid) :
    findProduct ps pid = some x := by
  induction ps with
  | nil => exact absurd hx (List.not_mem_nil x)
  | cons y rest ih =>
      rcases List.nodup_cons.mp hnd with ⟨hnot, hrest⟩
      rcases List.mem_cons.mp hx with h | h
      · subst h
        simp [findProduct, hid]
      · have hy : y.id ≠ pid := by
          intro hc
          apply hnot
          have : x.id ∈ rest.map fun p => p.id := List.mem_map_of_mem (fun p => p.id) h
          rw [hid, ← hc] at this
          exact this
        simp only [findProduct, hy, if_false]
        exact ih hrest h

theorem findProduct_updateFirstBy_id {ps : List Product} {pid : Nat} (f : Product → Product)
    (hf : ∀ x, (f x).id = x.id) :
    findProduct (updateFirstBy (fun x => decide (x.id = pid)) f ps) pid =
      (findProduct ps pid).map f := by
  induction ps with
  | nil => rfl
  | cons x rest ih =>
      by_cases hx : x.id = pid
      · simp only [updateFirstBy, decide_eq_true_eq, hx, if_true, findProduct, hf x,
          Option.map_some']
      · simp only [updateFirstBy, decide_eq_true_eq, hx, if_false, findProduct]
        rw [ih]

theorem findProduct_condUpdate {ps : List Product} {pid : Nat} {q : Int}
    (f : Product → Product) (hf : ∀ x, (f x).id = x.id) {p : Product}
    (hfind : findProduct ps pid = some p) (hq : q ≤ p.stock) :
    findProduct (updateFirstBy (fun x => decide (x.id = pid ∧ q ≤ x.stock)) f ps) pid =
      some (f p) := by
  induction ps with
  | nil => simp [findProduct] at hfind
  | cons x rest ih =>
      by_cases hx : x.id = pid
      · simp only [findProduct, hx, if_true, Option.some.injEq] at hfind
        subst hfind
        have hm : decide (x.id = pid ∧ q ≤ x.stock) = true :=
          decide_eq_true_eq.mpr ⟨hx, hq⟩
        simp only [updateFirstBy, hm, if_true]
        simp [findProduct, hf, hx]
      · simp only [findProduct, hx, if_false] at hfind
        have hm : decide (x.id = pid ∧ q ≤ x.stock) = false := by
          simp [hx]
        simp only [updateFirstBy, hm, Bool.false_eq_true, if_false, findProduct, hx,
          if_false]
        exact ih hfind

theorem condUpdate_no_match {ps : List Product} {pid : Nat} {q : Int}
    {f : Product → Product} (hnd : (ps.map fun p => p.id).Nodup) {p : Product}
    (hfind : findProduct ps pid = some p) (hq : ¬q ≤ p.stock) :
    updateFirstBy (fun x => decide (x.id = pid ∧ q ≤ x.stock)) f ps = ps := by
  refine updateFirstBy_none fun x hx => ?_
  by_cases hxid : x.id = pid
  · have : findProduct ps pid = some x := findProduct_of_mem_nodup hnd hx hxid
    rw [hfind] at this
    have hxp : p = x := by injection this
    subst hxp
    simp [hxid, hq]
  · simp [hxid]

theorem saveAddressToUser_frame (db : DB) (uid : Nat) (a : Address) :
    (saveAddressToUser db uid a).orders = db.orders ∧
    (saveAddressToUser db uid a).payments = db.payments ∧
    (saveAddressToUser db uid a).products = db.products ∧
    (saveAddressToUser db uid a).carts = db.carts := by
  unfold saveAddressToUser
  split
  · exact ⟨rfl, rfl, rfl, rfl⟩
  · split
    · exact ⟨rfl, rfl, rfl, rfl⟩
    · split
      · exact ⟨rfl, rfl, rfl, rfl⟩
      · exact ⟨rfl, rfl, rfl, rfl⟩

theorem createPaymentRecord_frame (db : DB) (p : Payment) :
    (createPaymentRecord db p).orders = db.orders ∧
    (createPaymentRecord db p).products = db.products ∧
    (createPaymentRecord db p).carts = db.carts ∧
    (createPaymentRecord db p).users = db.users := by
  unfold createPaymentRecord
  split
  · split
    · exact ⟨rfl, rfl, rfl, rfl⟩
    · exact ⟨rfl, rfl, rfl, rfl⟩
  · exact ⟨rfl, rfl, rfl, rfl⟩

theorem saveAddressToUser_mem_users {db : DB} {uid : Nat} {a : Address} {u : User}
    (hu : u ∈ (saveAddressToUser db uid a).users) (hne : u.id ≠ uid) :
    u ∈ db.users := by
  revert hu
  unfold saveAddressToUser
  split
  · exact fun hu => hu
  · split
    · exact fun hu => hu
    · split
      · exact fun hu => hu
      · intro hu
        exact mem_updateFirstBy_of_ne_key (fun v : User => v.id) hu (fun v => rfl) hne

theorem clearCart_mem_carts {db : DB} {uid : Nat} {c : Cart}
    (hc : c ∈ (clearCart db uid).carts) (hne : c.user ≠ uid) : c ∈ db.carts :=
  mem_updateFirstBy_of_ne_key (fun v : Cart => v.user) hc (fun _ => rfl) hne

/-- The cancellation restore never produces a negative stock. -/
theorem restoreItems_nonneg {items : List OrderItem} :
    ∀ {ps : List Product}, (∀ p ∈ ps, 0 ≤ p.stock) →
    ∀ p ∈ restoreItems ps items, 0 ≤ p.stock := by
  induction items with
  | nil => intro ps h; exact h
  | cons it rest ih =>
      intro ps h
      cases hprod : it.product with
      | none => simp only [restoreItems, hprod]; exact ih h
      | some pid =>
          simp only [restoreItems, hprod]
          refine ih (forall_updateFirstBy h fun p hp _ => ?_)
          exact add_nonneg hp (Int.natCast_nonneg _)

theorem jsStr_some (s : String) : jsStr (some s) = s := rfl

theorem mkPaidOrder_id (db : DB) (uid : Nat) (pd : PaymentDetails)
    (e : List OrderItem) (s : Nat) : (mkPaidOrder db uid pd e s).id = db.nextId := rfl

theorem findOrder_append_eq {l : List Order} {o : Order} {oid : Nat}
    (hfresh : ∀ x ∈ l, x.id ≠ oid) (ho : o.id = oid) :
    findOrder (l ++ [o]) oid = some o := by
  induction l with
  | nil => simp [findOrder, ho]
  | cons x rest ih =>
      have hx := hfresh x (List.mem_cons_self x rest)
      simp only [List.cons_append, findOrder, hx, if_false]
      exact ih fun y hy => hfresh y (List.mem_cons_of_mem x hy)

theorem updateFirstBy_append_singleton {l : List Order} {o : Order}
    {f : Order → Order} {oid : Nat}
    (hfresh : ∀ x ∈ l, x.id ≠ oid) (ho : o.id = oid) :
    updateFirstBy (fun x => decide (x.id = oid)) f (l ++ [o]) = l ++ [f o] := by
  rw [updateFirstBy_append_none fun x hx => by simp [hfresh x hx]]
  simp [updateFirstBy, ho]

theorem reduceStock_eq {db : DB} {oid : Nat} {o : Order}
    (hfind : findOrder db.orders oid = some o) (hsr : o.stockReduced = false) :
    (reduceStockAfterPayment db oid).1 =
      updateOrderDB { db with products := reduceItems db.products o.items } oid
        setStockReduced := by
  simp only [reduceStockAfterPayment, hfind, hsr, Bool.false_eq_true, if_false]

theorem createPaymentRecord_payments {dbA dbB : DB}
    (h : dbA.payments = dbB.payments) (p : Payment) :
    (createPaymentRecord dbA p).payments = (createPaymentRecord dbB p).payments := by
  cases hp : p.razorpayPaymentId with
  | none => simp only [createPaymentRecord, hp, h]
  | some s =>
      simp only [createPaymentRecord, hp, h]
      split <;> simp [h]

theorem createOrderFromCart_pid_spec (db : DB) (uid : Nat) (pd : PaymentDetails)
    (cart : Cart) (eitems : List OrderItem) (subtotal : Nat)
    (hc : findCart db.carts uid = some cart) (hne : cart.items ≠ [])
    (hen : enrichCartItems db.products cart.items = Except.ok (eitems, subtotal))
    (hfresh : ∀ x ∈ db.orders, x.id ≠ db.nextId) :
    ∃ db', createOrderFromCart db uid pd =
        Except.ok (db', mkPaidOrder db uid pd eitems subtotal) ∧
      db'.orders = db.orders ++
        [attachInvoice (setStockReduced (mkPaidOrder db uid pd eitems subtotal))] ∧
      db'.payments = (createPaymentRecord db
        (mkPaidRecord pd uid (mkPaidOrder db uid pd eitems subtotal))).payments := by
  simp only [createOrderFromCart, hc, hen]
  rw [if_neg hne]
  have hfind1 : findOrder
      ({ db with orders := db.orders ++ [mkPaidOrder db uid pd eitems subtotal],
                 nextId := db.nextId + 1 }).orders
      (mkPaidOrder db uid pd eitems subtotal).id =
        some (mkPaidOrder db uid pd eitems subtotal) := by
    show findOrder (db.orders ++ [mkPaidOrder db uid pd eitems subtotal])
      (mkPaidOrder db uid pd eitems subtotal).id = _
    exact findOrder_append_eq (fun x hx => hfresh x hx) rfl
  refine ⟨_, rfl, ?_, ?_⟩
  · rw [reduceStock_eq hfind1 rfl]
    show (updateFirstBy
        (fun x => decide (x.id = (mkPaidOrder db uid pd eitems subtotal).id))
        attachInvoice
        ((createPaymentRecord _ (mkPaidRecord pd uid
          (mkPaidOrder db uid pd eitems subtotal))).orders)) = _
    rw [(createPaymentRecord_frame _ _).1]
    show updateFirstBy _ attachInvoice
        (updateFirstBy
          (fun x => decide (x.id = (mkPaidOrder db uid pd eitems subtotal).id))
          setStockReduced
          (db.orders ++ [mkPaidOrder db uid pd eitems subtotal])) = _
    rw [mkPaidOrder_id]
    rw [updateFirstBy_append_singleton (fun x hx => hfresh x hx)
      (show (mkPaidOrder db uid pd eitems subtotal).id = db.nextId from rfl)]
    rw [updateFirstBy_append_singleton (fun x hx => hfresh x hx)
      (show (setStockReduced (mkPaidOrder db uid pd eitems subtotal)).id = db.nextId
        from rfl)]
  · rw [reduceStock_eq hfind1 rfl]
    show (createPaymentRecord _
      (mkPaidRecord pd uid (mkPaidOrder db uid pd eitems subtotal))).payments = _
    apply createPaymentRecord_payments
    rfl

theorem verify_first_call (hm : String → String → String) (secret : String)
    (db : DB) (uid : Nat) (req : VerifyReq) (cart : Cart) (eitems : List OrderItem)
    (subtotal : Nat) (pid : String)
    (hpid : req.razorpayPaymentId = some pid) (hne0 : pid ≠ "")
    (hzero : countOrdersPid db.orders pid = 0)
    (hnp : hasPaymentWithPid db.payments pid = false)
    (hsig : req.razorpaySignature =
      some (hm secret (jsStr req.razorpayOrderId ++ "|" ++ pid)))
    (hc : findCart db.carts uid = some cart) (hneC : cart.items ≠ [])
    (hen : enrichCartItems db.products cart.items = Except.ok (eitems, subtotal))
    (hfresh : ∀ x ∈ db.orders, x.id ≠ db.nextId) :
    ∃ (db1 : DB) (o1 : Order),
      verify hm secret db uid req = (db1, VerifyResult.ok o1.id o1.orderNumber) ∧
      o1.orderNumber = db.orders.length + 1 ∧
      countOrdersPid db1.orders pid = 1 ∧
      countPaymentsPid db1.payments pid = 1 ∧
      findOrderByPid db1.orders pid = some o1 ∧
      o1.paymentStatus = "Paid" := by
  have hguard : isPaymentAlreadyProcessed db req.razorpayPaymentId = false := by
    rw [hpid]
    simp only [isPaymentAlreadyProcessed]
    rw [if_neg hne0]
    exact hasPaidOrderWithPid_false_of_zero hzero
  obtain ⟨db', hok, hord, hpay⟩ := createOrderFromCart_pid_spec db uid
    { paymentId := req.razorpayPaymentId, razorpayOrderId := req.razorpayOrderId,
      razorpaySignature := req.razorpaySignature, paymentMethod := some "Razorpay",
      shippingAddress := req.shippingAddress }
    cart eitems subtotal hc hneC hen hfresh
  have hOp : (attachInvoice (setStockReduced (mkPaidOrder db uid
      { paymentId := req.razorpayPaymentId, razorpayOrderId := req.razorpayOrderId,
        razorpaySignature := req.razorpaySignature, paymentMethod := some "Razorpay",
        shippingAddress := req.shippingAddress } eitems subtotal))).paymentId =
      some pid := by
    show req.razorpayPaymentId = some pid
    exact hpid
  refine ⟨saveAddressToUser db' uid req.shippingAddress,
    attachInvoice (setStockReduced (mkPaidOrder db uid
      { paymentId := req.razorpayPaymentId, razorpayOrderId := req.razorpayOrderId,
        razorpaySignature := req.razorpaySignature, paymentMethod := some "Razorpay",
        shippingAddress := req.shippingAddress } eitems subtotal)),
    ?_, rfl, ?_, ?_, ?_, rfl⟩
  · simp only [verify, hguard, Bool.false_eq_true, if_false]
    have hcond : ¬(some (hm secret
        (jsStr req.razorpayOrderId ++ "|" ++ jsStr req.razorpayPaymentId)) ≠
          req.razorpaySignature) := by
      rw [hpid, jsStr_some, hsig]
      exact fun hne => hne rfl
    rw [if_neg hcond, hok]
    rfl
  · rw [(saveAddressToUser_frame db' uid req.shippingAddress).1, hord,
      countOrdersPid_append, hzero]
    simp only [countOrdersPid]
    rw [if_pos hOp]
  · rw [(saveAddressToUser_frame db' uid req.shippingAddress).2.1, hpay]
    have hRp : (mkPaidRecord
        { paymentId := req.razorpayPaymentId, razorpayOrderId := req.razorpayOrderId,
          razorpaySignature := req.razorpaySignature, paymentMethod := some "Razorpay",
          shippingAddress := req.shippingAddress } uid (mkPaidOrder db uid
        { paymentId := req.razorpayPaymentId, razorpayOrderId := req.razorpayOrderId,
          razorpaySignature := req.razorpaySignature, paymentMethod := some "Razorpay",
          shippingAddress := req.shippingAddress } eitems subtotal)).razorpayPaymentId =
        some pid := by
      show req.razorpayPaymentId = some pid
      exact hpid
    simp only [createPaymentRecord, hRp, hnp, Bool.false_eq_true, if_false]
    rw [countPaymentsPid_append]
    rw [countPaymentsPid_eq_zero.mpr (hasPaymentWithPid_eq_false.mp hnp)]
    simp only [countPaymentsPid]
    rw [if_pos hRp]
  · rw [(saveAddressToUser_frame db' uid req.shippingAddress).1, hord,
      findOrderByPid_append_left_zero hzero]
    simp only [findOrderByPid]
    rw [if_pos hOp]

theorem findOrderByPid_update_of_zero {l : List Order} {oid : Nat} {o : Order}
    {f : Order → Order} {pid : String}
    (hfind : findOrder l oid = some o) (hzero : countOrdersPid l pid = 0)
    (hfp : (f o).paymentId = some pid) :
    findOrderByPid (updateFirstBy (fun x => decide (x.id = oid)) f l) pid =
      some (f o) := by
  induction l with
  | nil => simp [findOrder] at hfind
  | cons x rest ih =>
      have hx : x.paymentId ≠ some pid :=
        countOrdersPid_eq_zero.mp hzero x (List.mem_cons_self x rest)
      have hrest : countOrdersPid rest pid = 0 :=
        countOrdersPid_eq_zero.mpr fun y hy =>
          countOrdersPid_eq_zero.mp hzero y (List.mem_cons_of_mem x hy)
      by_cases hid : x.id = oid
      · simp only [findOrder, hid, if_true, Option.some.injEq] at hfind
        subst hfind
        simp only [updateFirstBy, decide_eq_true_eq, hid, if_true, findOrderByPid,
          hfp, if_true]
      · simp only [findOrder, hid, if_false] at hfind
        simp only [updateFirstBy, decide_eq_true_eq, hid, if_false, findOrderByPid,
          hx, if_false]
        exact ih hfind hrest

theorem settled_state_stable (hm : String → String → String) (secret whSecret : String)
    (db : DB) (pid : String) (o : Order)
    (hne0 : pid ≠ "") (hfindp : findOrderByPid db.orders pid = some o)
    (hpaid : o.paymentStatus = "Paid") :
    (∀ (uid : Nat) (req : VerifyReq), req.razorpayPaymentId = some pid →
       verify hm secret db uid req =
         (db, VerifyResult.alreadyProcessed o.id o.orderNumber)) ∧
    (∀ req : WebhookReq, (∃ pay, req.payment = some pay ∧ pay.id = pid) →
       (webhook hm whSecret db req).1 = db) := by
  have hg : isPaymentAlreadyProcessed db (some pid) = true := by
    simp only [isPaymentAlreadyProcessed]
    rw [if_neg hne0]
    exact hasPaidOrderWithPid_of_find hfindp hpaid
  constructor
  · intro uid req hpid
    simp only [verify, hpid, hg, if_true, jsStr_some, hfindp]
  · intro req ⟨pay, hp, hpidp⟩
    by_cases hsig : some (hm whSecret req.raw) ≠ req.signature
    · simp only [webhook, if_pos hsig]
    · simp only [webhook, if_neg hsig, hp]
      by_cases hev : req.event ≠ "payment.captured"
      · rw [if_pos hev]
      · rw [if_neg hev, hpidp, hg]
        simp

theorem runCalls_stable (hm : String → String → String) (secret whSecret : String)
    (db : DB) (pid : String) (o : Order)
    (hne0 : pid ≠ "") (hfindp : findOrderByPid db.orders pid = some o)
    (hpaid : o.paymentStatus = "Paid") :
    ∀ calls : List SettleCall, (∀ c ∈ calls, carriesPid pid c) →
      runCalls hm secret whSecret db calls =
        (db, calls.map fun c => (settleStep hm secret whSecret db c).2) := by
  have hstep : ∀ c, carriesPid pid c → (settleStep hm secret whSecret db c).1 = db := by
    intro c hcar
    cases c with
    | clientVerify uid req =>
        show (verify hm secret db uid req).1 = db
        rw [(settled_state_stable hm secret whSecret db pid o hne0 hfindp hpaid).1
          uid req hcar]
    | hook req =>
        exact (settled_state_stable hm secret whSecret db pid o hne0 hfindp hpaid).2
          req hcar
  intro calls hall
  induction calls with
  | nil => rfl
  | cons c rest ih =>
      have hc := hstep c (hall c (List.mem_cons_self c rest))
      simp only [runCalls, List.map_cons, hc,
        ih fun y hy => hall y (List.mem_cons_of_mem c hy)]

theorem cod_success_eq (db : DB) (uid oid : Nat) (o : Order)
    (hfind : findOrder db.orders oid = some o) (hown : o.user = uid)
    (hamt : ¬o.totalAmount > 5000) :
    cod db uid (some oid) =
      (clearCart
        (saveAddressToUser
          (updateOrderDB (updateOrderDB db oid codUpdate) oid attachInvoice)
          uid o.shippingAddress) uid,
       CodResult.ok o.id o.orderNumber) := by
  simp only [cod, hfind]
  rw [if_neg (fun h => h hown), if_neg hamt]

end Lemmas

/-- C8: replaying the stock-reduction step for an order whose `stockReduced`
flag is already true produces no stock change and no mutation at all (the
step returns the state unchanged with `false`), and a run on an order with the
flag unset leaves the order with the flag set — so the flag transitions
false→true at most once per order. -/
theorem claim_C8_stockReduced_at_most_once (db : DB) (oid : Nat) (o : Order)
    (hfind : findOrder db.orders oid = some o) :
    (o.stockReduced = true → reduceStockAfterPayment db oid = (db, false)) ∧
    (o.stockReduced = false →
       findOrder ((reduceStockAfterPayment db oid).1).orders oid =
         some { o with stockReduced := true }) := by
  constructor
  · intro h
    simp only [reduceStockAfterPayment, hfind, h, if_true]
  · intro h
    simp only [reduceStockAfterPayment, hfind, h, Bool.false_eq_true, if_false,
      updateOrderDB]
    rw [findOrder_updateFirstBy setStockReduced (fun x => rfl), hfind]
    rfl

/-- Witness for C8 at a concrete database whose order already has
`stockReduced` set. -/
theorem claim_C8_witness :
    reduceStockAfterPayment
        (wDB [{ wOrderBase with stockReduced := true }] [wProd 5] [] [] []) 1 =
      (wDB [{ wOrderBase with stockReduced := true }] [wProd 5] [] [] [], false) :=
  (claim_C8_stockReduced_at_most_once
    (wDB [{ wOrderBase with stockReduced := true }] [wProd 5] [] [] []) 1
    { wOrderBase with stockReduced := true } rfl).1 rfl

/-- C10: the idempotency guard returns `false` for an absent or empty external
payment id, any `true` answer is backed by a stored order with that payment id
and payment status `Paid`, and a verify call without an external payment id is
never short-circuited to the already-processed response. -/
theorem claim_C10_guard_falsy :
    (∀ db : DB, isPaymentAlreadyProcessed db none = false) ∧
    (∀ db : DB, isPaymentAlreadyProcessed db (some "") = false) ∧
    (∀ (db : DB) (s : String), isPaymentAlreadyProcessed db (some s) = true →
       ∃ o, o ∈ db.orders ∧ o.paymentId = some s ∧ o.paymentStatus = "Paid") ∧
    (∀ (hmac : String → String → String) (secret : String) (db : DB) (uid : Nat)
       (req : VerifyReq),
       (req.razorpayPaymentId = none ∨ req.razorpayPaymentId = some "") →
       ∀ i n, (verify hmac secret db uid req).2 ≠ VerifyResult.alreadyProcessed i n) := by
  refine ⟨fun db => rfl, fun db => by simp [isPaymentAlreadyProcessed], ?_, ?_⟩
  · intro db s h
    simp only [isPaymentAlreadyProcessed] at h
    by_cases hs : s = ""
    · rw [if_pos hs] at h
      exact absurd h (by simp)
    · rw [if_neg hs] at h
      exact hasPaidOrderWithPid_exists h
  · intro hmac secret db uid req hreq i n
    have hg : isPaymentAlreadyProcessed db req.razorpayPaymentId = false := by
      rcases hreq with h | h <;> rw [h]
      · rfl
      · simp [isPaymentAlreadyProcessed]
    simp only [verify, hg, Bool.false_eq_true, if_false]
    split
    · simp
    · split <;> simp

/-- Witness for C10: a `true` guard answer on a concrete database is backed by
a stored `Paid` order with that payment id. -/
theorem claim_C10_witness :
    ∃ o, o ∈ (wDB [wOrderBase] [] [] [] []).orders ∧ o.paymentId = some "px" ∧
      o.paymentStatus = "Paid" :=
  claim_C10_guard_falsy.2.2.1 (wDB [wOrderBase] [] [] [] []) "px" rfl

/-- C7: a COD call on an existing order owned by the caller fails with the COD
limit error and leaves the database untouched when the total exceeds 5000, and
otherwise flips payment method to `COD`, keeps payment status `Pending`, sets
order status `PLACED` and appends exactly one history entry. -/
theorem claim_C7_cod_ceiling (db : DB) (uid oid : Nat) (o : Order)
    (hfind : findOrder db.orders oid = some o) (hown : o.user = uid) :
    (o.totalAmount > 5000 → cod db uid (some oid) = (db, CodResult.codLimit)) ∧
    (¬o.totalAmount > 5000 →
       (cod db uid (some oid)).2 = CodResult.ok o.id o.orderNumber ∧
       ∃ o', findOrder ((cod db uid (some oid)).1).orders oid = some o' ∧
         o'.paymentMethod = "COD" ∧ o'.paymentStatus = "Pending" ∧
         o'.status = "PLACED" ∧
         o'.statusHistory =
           o.statusHistory ++ [⟨"PLACED", "Cash on Delivery order placed"⟩]) := by
  constructor
  · intro h
    simp only [cod, hfind]
    rw [if_neg (fun hc => hc hown), if_pos h]
  · intro h
    rw [cod_success_eq db uid oid o hfind hown h]
    refine ⟨rfl, ?_⟩
    have h1 : (clearCart
        (saveAddressToUser
          (updateOrderDB (updateOrderDB db oid codUpdate) oid attachInvoice)
          uid o.shippingAddress) uid).orders =
        (updateOrderDB (updateOrderDB db oid codUpdate) oid attachInvoice).orders :=
      (saveAddressToUser_frame _ uid o.shippingAddress).1
    rw [h1]
    simp only [updateOrderDB]
    rw [findOrder_updateFirstBy attachInvoice (fun x => rfl),
      findOrder_updateFirstBy codUpdate (fun x => rfl), hfind]
    exact ⟨_, rfl, rfl, rfl, rfl, rfl⟩

/-- Witness for C7 at a concrete order of total 6000: the COD call fails with
the ceiling error and the database is unchanged. -/
theorem claim_C7_witness :
    cod (wDB [{ wOrderBase with totalAmount := 6000 }] [] [] [] []) 7 (some 1) =
      (wDB [{ wOrderBase with totalAmount := 6000 }] [] [] [] [], CodResult.codLimit) :=
  (claim_C7_cod_ceiling (wDB [{ wOrderBase with totalAmount := 6000 }] [] [] [] [])
    7 1 { wOrderBase with totalAmount := 6000 } rfl rfl).1 (by decide)

/-- C9: a successful COD placement leaves products and the payment ledger
exactly unchanged (no stock decrement, no ledger insert), and every order,
cart or user other than the target order, the caller's cart and the caller's
profile is still present unchanged. -/
theorem claim_C9_cod_frame (db : DB) (uid oid : Nat) (o : Order)
    (hfind : findOrder db.orders oid = some o) (hown : o.user = uid)
    (hamt : ¬o.totalAmount > 5000) :
    ((cod db uid (some oid)).1).products = db.products ∧
    ((cod db uid (some oid)).1).payments = db.payments ∧
    (∀ o' ∈ ((cod db uid (some oid)).1).orders, o'.id ≠ oid → o' ∈ db.orders) ∧
    (∀ c ∈ ((cod db uid (some oid)).1).carts, c.user ≠ uid → c ∈ db.carts) ∧
    (∀ u ∈ ((cod db uid (some oid)).1).users, u.id ≠ uid → u ∈ db.users) := by
  rw [cod_success_eq db uid oid o hfind hown hamt]
  have hsf := saveAddressToUser_frame
    (updateOrderDB (updateOrderDB db oid codUpdate) oid attachInvoice)
    uid o.shippingAddress
  refine ⟨?_, ?_, ?_, ?_, ?_⟩
  · exact hsf.2.2.1
  · exact hsf.2.1
  · intro o' ho' hne
    rw [show (clearCart (saveAddressToUser
        (updateOrderDB (updateOrderDB db oid codUpdate) oid attachInvoice)
        uid o.shippingAddress) uid).orders = (saveAddressToUser
        (updateOrderDB (updateOrderDB db oid codUpdate) oid attachInvoice)
        uid o.shippingAddress).orders from rfl] at ho'
    rw [hsf.1] at ho'
    simp only [updateOrderDB] at ho'
    exact mem_updateFirstBy_of_ne_key (fun x : Order => x.id)
      (mem_updateFirstBy_of_ne_key (fun x : Order => x.id) ho' (fun x => rfl) hne)
      (fun x => rfl) hne
  · intro c hc hne
    have hmem := clearCart_mem_carts hc hne
    rw [hsf.2.2.2] at hmem
    exact hmem
  · intro u hu hne
    have hu' : u ∈ (saveAddressToUser
        (updateOrderDB (updateOrderDB db oid codUpdate) oid attachInvoice)
        uid o.shippingAddress).users := hu
    have hres := saveAddressToUser_mem_users hu' hne
    exact hres

/-- Counterexample for C1: a sequence of N = 1 settlement calls — a single
valid `payment.captured` webhook whose notes reference a pre-existing order —
marks that order Paid (it bears the payment id afterwards) yet writes no
Payment Ledger Entry at all: afterwards exactly one Order but zero ledger
entries carry the payment id, and the call's response is a generic
acknowledgement with no order number, contradicting the claim's "exactly one
Payment Ledger Entry" and "every call returns the same order number". -/
theorem claim_C1_counterexample :
    webhook hmacConcat "w" wDBhook wHookReq =
      ({ wDBhook with orders := [webhookPaidUpdate "p1" wHookOrder] },
       WebhookResult.ack) ∧
    countOrdersPid ((webhook hmacConcat "w" wDBhook wHookReq).1).orders "p1" = 1 ∧
    ((findOrderByPid ((webhook hmacConcat "w" wDBhook wHookReq).1).orders "p1").map
      fun o => o.paymentStatus) = some "Paid" ∧
    ((webhook hmacConcat "w" wDBhook wHookReq).1).payments = [] ∧
    countPaymentsPid ((webhook hmacConcat "w" wDBhook wHookReq).1).payments "p1" = 0 :=
  ⟨rfl, rfl, rfl, rfl, rfl⟩

/-- C1 (amended): (1) for a first client-verify settlement with a valid proof
and a fresh payment id, exactly one Order and exactly one Payment Ledger
Entry bearing the id exist afterwards, the call returns the new order's
number, and every further settlement call (client verify or webhook)
carrying the id leaves the database exactly unchanged, each further
client-verify call returning the same order number; (2) a webhook-first
settlement of a pre-existing order (`payment.captured` with an order id in
the notes) marks the order Paid but inserts no Payment Ledger Entry and
returns a generic acknowledgement without an order number — afterwards later
calls carrying the id still short-circuit without mutating state. -/
theorem claim_C1_settlement_amended :
    (∀ (hm : String → String → String) (secret whSecret : String) (db : DB)
       (uid : Nat) (req : VerifyReq) (cart : Cart) (eitems : List OrderItem)
       (subtotal : Nat) (pid : String),
       req.razorpayPaymentId = some pid → pid ≠ "" →
       countOrdersPid db.orders pid = 0 →
       hasPaymentWithPid db.payments pid = false →
       req.razorpaySignature =
         some (hm secret (jsStr req.razorpayOrderId ++ "|" ++ pid)) →
       findCart db.carts uid = some cart → cart.items ≠ [] →
       enrichCartItems db.products cart.items = Except.ok (eitems, subtotal) →
       (∀ x ∈ db.orders, x.id ≠ db.nextId) →
       ∃ (db1 : DB) (o1 : Order),
         verify hm secret db uid req = (db1, VerifyResult.ok o1.id o1.orderNumber) ∧
         o1.orderNumber = db.orders.length + 1 ∧
         countOrdersPid db1.orders pid = 1 ∧
         countPaymentsPid db1.payments pid = 1 ∧
         (∀ calls : List SettleCall, (∀ c ∈ calls, carriesPid pid c) →
           runCalls hm secret whSecret db1 calls =
             (db1, calls.map fun c => (settleStep hm secret whSecret db1 c).2)) ∧
         (∀ (uid' : Nat) (req' : VerifyReq), req'.razorpayPaymentId = some pid →
           (settleStep hm secret whSecret db1 (SettleCall.clientVerify uid' req')).2 =
             SettleResult.v (VerifyResult.alreadyProcessed o1.id o1.orderNumber))) ∧
    (∀ (hm : String → String → String) (secret whSecret : String) (db : DB)
       (req : WebhookReq) (pay : WebhookPayment) (oid : Nat) (o : Order)
       (pid : String),
       req.payment = some pay → pay.id = pid → pid ≠ "" →
       some (hm whSecret req.raw) = req.signature →
       req.event = "payment.captured" →
       countOrdersPid db.orders pid = 0 →
       pay.notesOrderId = some oid →
       findOrder db.orders oid = some o → o.paymentStatus ≠ "Paid" →
       ∃ db1 : DB,
         webhook hm whSecret db req = (db1, WebhookResult.ack) ∧
         db1.payments = db.payments ∧
         findOrder db1.orders oid = some (webhookPaidUpdate pid o) ∧
         (∀ calls : List SettleCall, (∀ c ∈ calls, carriesPid pid c) →
           runCalls hm secret whSecret db1 calls =
             (db1, calls.map fun c => (settleStep hm secret whSecret db1 c).2)) ∧
         (∀ (uid' : Nat) (req' : VerifyReq), req'.razorpayPaymentId = some pid →
           (settleStep hm secret whSecret db1 (SettleCall.clientVerify uid' req')).2 =
             SettleResult.v (VerifyResult.alreadyProcessed
               (webhookPaidUpdate pid o).id (webhookPaidUpdate pid o).orderNumber))) := by
  constructor
  · intro hm secret whSecret db uid req cart eitems subtotal pid hpid hne0 hzero
      hnp hsig hc hneC hen hfresh
    obtain ⟨db1, o1, hver, hnum, hcnt, hpayc, hfp, hpaid⟩ :=
      verify_first_call hm secret db uid req cart eitems subtotal pid hpid hne0 hzero
        hnp hsig hc hneC hen hfresh
    refine ⟨db1, o1, hver, hnum, hcnt, hpayc, ?_, ?_⟩
    · exact runCalls_stable hm secret whSecret db1 pid o1 hne0 hfp hpaid
    · intro uid' req' hp
      show SettleResult.v (verify hm secret db1 uid' req').2 = _
      rw [(settled_state_stable hm secret whSecret db1 pid o1 hne0 hfp hpaid).1
        uid' req' hp]
  · intro hm secret whSecret db req pay oid o pid hp hpidp hne0 hsig hev hzero
      hOid hfind hnotPaid
    subst hpidp
    have hg : isPaymentAlreadyProcessed db (some pay.id) = false := by
      simp only [isPaymentAlreadyProcessed]
      rw [if_neg hne0]
      exact hasPaidOrderWithPid_false_of_zero hzero
    have hfp : findOrderByPid
        (updateOrderDB db oid (webhookPaidUpdate pay.id)).orders pay.id =
        some (webhookPaidUpdate pay.id o) := by
      show findOrderByPid
        (updateFirstBy (fun x => decide (x.id = oid)) (webhookPaidUpdate pay.id)
          db.orders) pay.id = _
      exact findOrderByPid_update_of_zero hfind hzero rfl
    have hfo : findOrder (updateOrderDB db oid (webhookPaidUpdate pay.id)).orders oid =
        some (webhookPaidUpdate pay.id o) := by
      show findOrder
        (updateFirstBy (fun x => decide (x.id = oid)) (webhookPaidUpdate pay.id)
          db.orders) oid = _
      rw [findOrder_updateFirstBy (webhookPaidUpdate pay.id) (fun x => rfl), hfind]
      rfl
    cases hnU : pay.notesUserId with
    | none =>
        have hweb : webhook hm whSecret db req =
            (updateOrderDB db oid (webhookPaidUpdate pay.id), WebhookResult.ack) := by
          simp only [webhook, hp]
          rw [if_neg (fun h => h hsig), if_neg (fun h => h hev)]
          simp only [hg, Bool.false_eq_true, if_false, hOid, hfind]
          rw [if_neg hnotPaid]
          simp only [hnU]
        rw [hweb]
        refine ⟨_, rfl, rfl, hfo, ?_, ?_⟩
        · exact runCalls_stable hm secret whSecret _ pay.id
            (webhookPaidUpdate pay.id o) hne0 hfp rfl
        · intro uid' req' hp'
          show SettleResult.v (verify hm secret _ uid' req').2 = _
          rw [(settled_state_stable hm secret whSecret _ pay.id
            (webhookPaidUpdate pay.id o) hne0 hfp rfl).1 uid' req' hp']
    | some u =>
        have hweb : webhook hm whSecret db req =
            (saveAddressToUser (updateOrderDB db oid (webhookPaidUpdate pay.id)) u
              o.shippingAddress, WebhookResult.ack) := by
          simp only [webhook, hp]
          rw [if_neg (fun h => h hsig), if_neg (fun h => h hev)]
          simp only [hg, Bool.false_eq_true, if_false, hOid, hfind]
          rw [if_neg hnotPaid]
          simp only [hnU]
        rw [hweb]
        have hframe := saveAddressToUser_frame
          (updateOrderDB db oid (webhookPaidUpdate pay.id)) u o.shippingAddress
        have hfp' : findOrderByPid
            (saveAddressToUser (updateOrderDB db oid (webhookPaidUpdate pay.id)) u
              o.shippingAddress).orders pay.id = some (webhookPaidUpdate pay.id o) := by
          rw [hframe.1]
          exact hfp
        refine ⟨_, rfl, hframe.2.1, ?_, ?_, ?_⟩
        · rw [hframe.1]
          exact hfo
        · exact runCalls_stable hm secret whSecret _ pay.id
            (webhookPaidUpdate pay.id o) hne0 hfp' rfl
        · intro uid' req' hp'
          show SettleResult.v (verify hm secret _ uid' req').2 = _
          rw [(settled_state_stable hm secret whSecret _ pay.id
            (webhookPaidUpdate pay.id o) hne0 hfp' rfl).1 uid' req' hp']

/-- Witness for C1 (amended) at concrete databases: a verify-first settlement
of payment `p1` yields order number 1, one order and one ledger entry, with
later calls idempotent; and a webhook-first settlement of the pre-existing
order 1 marks it paid without touching the ledger, with later calls
idempotent. -/
theorem claim_C1_witness :
    (∃ (db1 : DB) (o1 : Order),
      verify hmacConcat "k" wDBc1 7 wReqGood =
        (db1, VerifyResult.ok o1.id o1.orderNumber) ∧
      o1.orderNumber = wDBc1.orders.length + 1 ∧
      countOrdersPid db1.orders "p1" = 1 ∧
      countPaymentsPid db1.payments "p1" = 1 ∧
      (∀ calls : List SettleCall, (∀ c ∈ calls, carriesPid "p1" c) →
        runCalls hmacConcat "k" "w" db1 calls =
          (db1, calls.map fun c => (settleStep hmacConcat "k" "w" db1 c).2)) ∧
      (∀ (uid' : Nat) (req' : VerifyReq), req'.razorpayPaymentId = some "p1" →
        (settleStep hmacConcat "k" "w" db1 (SettleCall.clientVerify uid' req')).2 =
          SettleResult.v (VerifyResult.alreadyProcessed o1.id o1.orderNumber))) ∧
    (∃ db1 : DB,
      webhook hmacConcat "w" wDBhook wHookReq = (db1, WebhookResult.ack) ∧
      db1.payments = wDBhook.payments ∧
      findOrder db1.orders 1 = some (webhookPaidUpdate "p1" wHookOrder) ∧
      (∀ calls : List SettleCall, (∀ c ∈ calls, carriesPid "p1" c) →
        runCalls hmacConcat "k" "w" db1 calls =
          (db1, calls.map fun c => (settleStep hmacConcat "k" "w" db1 c).2)) ∧
      (∀ (uid' : Nat) (req' : VerifyReq), req'.razorpayPaymentId = some "p1" →
        (settleStep hmacConcat "k" "w" db1 (SettleCall.clientVerify uid' req')).2 =
          SettleResult.v (VerifyResult.alreadyProcessed
            (webhookPaidUpdate "p1" wHookOrder).id
            (webhookPaidUpdate "p1" wHookOrder).orderNumber))) := by
  constructor
  · exact claim_C1_settlement_amended.1 hmacConcat "k" "w" wDBc1 7 wReqGood wCart _
      1000 "p1" rfl (by decide) rfl rfl (by decide) rfl (by decide) rfl (by decide)
  · exact claim_C1_settlement_amended.2 hmacConcat "k" "w" wDBhook wHookReq _ 1
      wHookOrder "p1" rfl rfl (by decide) rfl rfl rfl rfl rfl (by decide)

/-- C4: for an order whose settlement decremented every touched product by
exactly its requested quantity (stock covered the demand), a subsequent
cancellation restores every product stock to its pre-settlement value — the
settle-then-cancel pair is a no-op on products; and cancelling an order that
was never settled (`stockReduced` false) leaves products entirely
unchanged. -/
theorem claim_C4_cancel_restores (db : DB) (uid : Nat) (adm : Bool) (oid : Nat)
    (o : Order) (r : Option String)
    (hfind : findOrder db.orders oid = some o) (hsr : o.stockReduced = false) :
    ((cancelRoute db uid adm oid r).1).products = db.products ∧
    ((o.user = uid ∨ adm = true) →
     o.status ≠ "SHIPPED" → o.status ≠ "DELIVERED" → o.status ≠ "CANCELLED" →
     ((db.products.map fun p => p.id).Nodup) →
     (∀ p ∈ db.products, (needOf o.items p.id : Int) ≤ p.stock) →
     ((cancelRoute ((reduceStockAfterPayment db oid).1) uid adm oid r).1).products =
       db.products) := by
  constructor
  · simp only [cancelRoute, hfind]
    split
    · rfl
    · split
      · rfl
      · cases hc : cancelOrderWithStockRestore db oid
            (jsOr r ("Cancelled by " ++ if adm = true then "admin" else "user")) with
        | error e => rfl
        | ok db1 =>
            revert hc
            simp only [cancelOrderWithStockRestore, hfind]
            split
            · intro hc; exact absurd hc (by simp)
            · intro hc
              simp only [Except.ok.injEq] at hc
              subst hc
              simp only [updateOrderDB]
              split
              · rename_i hcond
                rw [hsr] at hcond
                exact absurd hcond.1 (by simp)
              · rfl
  · intro hown hs1 hs2 hs3 hnd hle
    have hroundtrip : restoreItems (reduceItems db.products o.items) o.items =
        db.products := by
      rw [reduceItems_eq_map hnd hle]
      have hnd2 : (((db.products.map fun p =>
          { p with stock := p.stock - (needOf o.items p.id : Int) }).map
            fun p => p.id)).Nodup := by
        rw [map_id_preserved
          (fun p => { p with stock := p.stock - (needOf o.items p.id : Int) })
          (fun p => rfl)]
        exact hnd
      rw [restoreItems_eq_map hnd2, List.map_map]
      refine (List.map_congr_left fun p hp => ?_).trans (List.map_id db.products)
      show ({ p with stock :=
          p.stock - (needOf o.items p.id : Int) + (needOf o.items p.id : Int) } :
            Product) = p
      rw [sub_add_cancel]
    have hordersR : ((reduceStockAfterPayment db oid).1).orders =
        updateFirstBy (fun x => decide (x.id = oid)) setStockReduced db.orders := by
      simp only [reduceStockAfterPayment, hfind, hsr, Bool.false_eq_true, if_false,
        updateOrderDB]
    have hprodR : ((reduceStockAfterPayment db oid).1).products =
        reduceItems db.products o.items := by
      simp only [reduceStockAfterPayment, hfind, hsr, Bool.false_eq_true, if_false,
        updateOrderDB]
    have hfindR : findOrder ((reduceStockAfterPayment db oid).1).orders oid =
        some (setStockReduced o) := by
      rw [hordersR, findOrder_updateFirstBy setStockReduced (fun x => rfl), hfind]
      rfl
    simp only [cancelRoute, hfindR]
    rw [if_neg (fun hc => by
      rcases hown with h | h
      · exact hc.1 h
      · rw [h] at hc; exact absurd hc.2 (by simp))]
    rw [if_neg (fun hc => by
      rcases hc with h | h
      · exact hs1 h
      · exact hs2 h)]
    cases hc : cancelOrderWithStockRestore ((reduceStockAfterPayment db oid).1) oid
        (jsOr r ("Cancelled by " ++ if adm = true then "admin" else "user")) with
    | error e =>
        exfalso
        revert hc
        simp only [cancelOrderWithStockRestore, hfindR]
        rw [if_neg (fun hc' : (setStockReduced o).status = "CANCELLED" => hs3 hc')]
        intro hc
        exact absurd hc (by simp)
    | ok db1 =>
        revert hc
        simp only [cancelOrderWithStockRestore, hfindR]
        rw [if_neg (fun hc' : (setStockReduced o).status = "CANCELLED" => hs3 hc')]
        intro hc
        simp only [Except.ok.injEq] at hc
        subst hc
        simp only [updateOrderDB]
        by_cases hit : o.items = []
        · rw [if_neg (fun hcond => hcond.2 hit)]
          show ((reduceStockAfterPayment db oid).1).products = db.products
          rw [hprodR, hit]
          rfl
        · rw [if_pos ⟨rfl, hit⟩]
          show restoreItems ((reduceStockAfterPayment db oid).1).products o.items =
            db.products
          rw [hprodR]
          exact hroundtrip

/-- Witness for C4 at a concrete database (stock 10, settled quantity 2):
cancelling right after settling restores products exactly, and cancelling the
never-settled order changes nothing. -/
theorem claim_C4_witness :
    ((cancelRoute ((reduceStockAfterPayment (wDB [wOrderBase] [wProd 10] [] [] [])
          1).1) 7 false 1 none).1).products =
        (wDB [wOrderBase] [wProd 10] [] [] []).products ∧
    ((cancelRoute (wDB [wOrderBase] [wProd 10] [] [] []) 7 false 1 none).1).products =
        (wDB [wOrderBase] [wProd 10] [] [] []).products := by
  have h := claim_C4_cancel_restores (wDB [wOrderBase] [wProd 10] [] [] []) 7 false 1
    wOrderBase none rfl rfl
  exact ⟨h.2 (Or.inl rfl) (by decide) (by decide) (by decide) (by decide)
    (by decide), h.1⟩

/-- Counterexample for C5: a cart whose items subtotal is exactly the
999-unit threshold is charged the flat 49 fee (total 1048), contradicting the
claim that shipping is zero when the subtotal is at or above the threshold. -/
theorem claim_C5_counterexample :
    (enrichCartItems wDB999.products wCart999.items).map (fun x => x.2) =
      Except.ok 999 ∧
    (createOrderFromCart wDB999 7 wPd).map
      (fun x => (x.2.shippingCharge, x.2.totalAmount)) = Except.ok (49, 1048) :=
  ⟨rfl, rfl⟩

/-- C5 (amended): an order created at settlement has shipping charge zero only
when the items subtotal strictly exceeds 999 and the flat 49 fee when the
subtotal is at or below 999 (`totalAmount > 999 ? 0 : 49` on the subtotal),
and the stored total equals the items subtotal plus the shipping charge. -/
theorem claim_C5_shipping_amended (db : DB) (uid : Nat) (pd : PaymentDetails)
    (cart : Cart) (eitems : List OrderItem) (subtotal : Nat) (db' : DB) (ord : Order)
    (hc : findCart db.carts uid = some cart) (hne : cart.items ≠ [])
    (hen : enrichCartItems db.products cart.items = Except.ok (eitems, subtotal))
    (hok : createOrderFromCart db uid pd = Except.ok (db', ord)) :
    ord.shippingCharge = (if subtotal > 999 then 0 else 49) ∧
    ord.totalAmount = subtotal + ord.shippingCharge := by
  simp only [createOrderFromCart, hc] at hok
  rw [if_neg hne] at hok
  simp only [hen, Except.ok.injEq, Prod.mk.injEq] at hok
  rcases hok with ⟨-, hord⟩
  subst hord
  exact ⟨rfl, rfl⟩

/-- Witness for C5 (amended) at the spec's own example: subtotal 1200 gives
shipping 0 and total 1200. -/
theorem claim_C5_witness :
    wOrder1200.shippingCharge = (if 1200 > 999 then 0 else 49) ∧
    wOrder1200.totalAmount = 1200 + wOrder1200.shippingCharge :=
  claim_C5_shipping_amended wDB1200 7 wPd wCart1200 _ 1200 _ wOrder1200 rfl
    (by decide) rfl rfl

/-- Counterexample for C6: the admin status route moves a `DELIVERED`
(terminal) order back to `CREATED`, a transition the spec's state machine
forbids. -/
theorem claim_C6_counterexample :
    specLegalTransition "DELIVERED" "CREATED" = false ∧
    (adminUpdateStatus wDB6 1 "CREATED" "n" none).2 = true ∧
    ((findOrder ((adminUpdateStatus wDB6 1 "CREATED" "n" none).1).orders 1).map
      (fun o => o.status)) = some "CREATED" ∧
    ((findOrder wDB6.orders 1).map (fun o => o.status)) = some "DELIVERED" :=
  ⟨rfl, rfl, rfl, rfl⟩

/-- C6 (amended): the transition guard exists only on the cancellation path —
cancelling a `SHIPPED`/`DELIVERED` order fails with the illegal-transition
error and an already-`CANCELLED` order is rejected by the transactional
cancel, both leaving the state unchanged — while the admin status route
writes any requested status unconditionally, with no state-machine check. -/
theorem claim_C6_transitions_amended :
    (∀ (db : DB) (uid : Nat) (adm : Bool) (oid : Nat) (o : Order) (r : Option String),
       findOrder db.orders oid = some o → (o.user = uid ∨ adm = true) →
       (o.status = "SHIPPED" ∨ o.status = "DELIVERED") →
       cancelRoute db uid adm oid r = (db, CancelResult.cannotCancel)) ∧
    (∀ (db : DB) (oid : Nat) (r : String) (o : Order),
       findOrder db.orders oid = some o → o.status = "CANCELLED" →
       cancelOrderWithStockRestore db oid r =
         Except.error "Order is already cancelled") ∧
    (∀ (db : DB) (oid : Nat) (s note : String) (pso : Option String) (o : Order),
       findOrder db.orders oid = some o →
       (adminUpdateStatus db oid s note pso).2 = true ∧
       ∃ o', findOrder ((adminUpdateStatus db oid s note pso).1).orders oid = some o' ∧
         o'.status = s) := by
  refine ⟨?_, ?_, ?_⟩
  · intro db uid adm oid o r hfind hown hstat
    simp only [cancelRoute, hfind]
    rw [if_neg (fun hc => by
      rcases hown with h | h
      · exact hc.1 h
      · rw [h] at hc; exact absurd hc.2 (by simp)), if_pos hstat]
  · intro db oid r o hfind hstat
    simp only [cancelOrderWithStockRestore, hfind, hstat, if_true]
  · intro db oid s note pso o hfind
    refine ⟨by simp only [adminUpdateStatus, hfind], ?_⟩
    simp only [adminUpdateStatus, hfind, updateOrderDB]
    rw [findOrder_updateFirstBy (adminStatusSet s note pso) (fun x => rfl), hfind]
    exact ⟨_, rfl, rfl⟩

/-- Witness for C6 (amended): cancelling a concrete `SHIPPED` order fails with
the guard error and changes nothing. -/
theorem claim_C6_witness :
    cancelRoute wDB6s 7 false 1 none = (wDB6s, CancelResult.cannotCancel) :=
  claim_C6_transitions_amended.1 wDB6s 7 false 1
    { wOrderBase with status := "SHIPPED" } none rfl (Or.inl rfl) (Or.inl rfl)

/-- Counterexample for C2: the settlement path (`reduceStockAfterPayment`)
decrements a product whose stock (1) is below the requested quantity (2),
clamping it to 0 instead of leaving it unchanged, and reports success rather
than `InsufficientStock`. -/
theorem claim_C2_counterexample :
    findProduct wDB2.products 1 = some (wProd 1) ∧ (wProd 1).stock = 1 ∧
    ((findOrder wDB2.orders 1).map
      (fun o => o.items.map fun it => (it.product, it.quantity))) =
        some [(some 1, 2)] ∧
    (((reduceStockAfterPayment wDB2 1).1).products.map fun p => p.stock) = [0] ∧
    (reduceStockAfterPayment wDB2 1).2 = true :=
  ⟨rfl, rfl, rfl, rfl, rfl⟩

/-- C2 (amended): the `$gte`-guarded single conditional update (decrement only
when stock covers the quantity, otherwise stock untouched and only a warning)
exists in `executePaymentTransaction`'s stock step; the settlement routes'
`reduceStockAfterPayment` instead clamps stock to `max(0, stock - qty)`,
decrementing partially when stock is short; and stock is never negative after
any settlement (either path) or cancellation. -/
theorem claim_C2_stock_amended :
    (∀ (ps : List Product) (it : OrderItem) (pid : Nat) (p : Product),
       it.product = some pid → findProduct ps pid = some p →
       ((qtyOr1 it.quantity : Int) ≤ p.stock →
          findProduct (condReduceItems ps [it]) pid =
            some { p with stock := p.stock - (qtyOr1 it.quantity : Int) }) ∧
       ((ps.map fun x => x.id).Nodup → ¬(qtyOr1 it.quantity : Int) ≤ p.stock →
          condReduceItems ps [it] = ps)) ∧
    (∀ (ps : List Product) (it : OrderItem) (pid : Nat) (p : Product),
       it.product = some pid → findProduct ps pid = some p →
       findProduct (reduceItems ps [it]) pid =
         some { p with stock := max 0 (p.stock - (qtyOr1 it.quantity : Int)) }) ∧
    (∀ (db : DB) (oid : Nat), (∀ p ∈ db.products, 0 ≤ p.stock) →
       ∀ p ∈ ((reduceStockAfterPayment db oid).1).products, 0 ≤ p.stock) ∧
    (∀ (db : DB) (o : Order) (pd : PaymentDetails) (rs : Bool),
       (∀ p ∈ db.products, 0 ≤ p.stock) →
       ∀ p ∈ ((executePaymentTransaction db o pd rs).1).products, 0 ≤ p.stock) ∧
    (∀ (db : DB) (uid : Nat) (adm : Bool) (oid : Nat) (r : Option String),
       (∀ p ∈ db.products, 0 ≤ p.stock) →
       ∀ p ∈ ((cancelRoute db uid adm oid r).1).products, 0 ≤ p.stock) := by
  refine ⟨?_, ?_, ?_, ?_, ?_⟩
  · intro ps it pid p hprod hfind
    constructor
    · intro hq
      simp only [condReduceItems, hprod]
      exact findProduct_condUpdate
        (fun x => { x with stock := x.stock - (qtyOr1 it.quantity : Int) })
        (fun x => rfl) hfind hq
    · intro hnd hq
      simp only [condReduceItems, hprod]
      exact condUpdate_no_match hnd hfind hq
  · intro ps it pid p hprod hfind
    simp only [reduceItems, hprod, hfind]
    rw [findProduct_updateFirstBy_id
      (fun x => { x with stock := max 0 (x.stock - (qtyOr1 it.quantity : Int)) })
      (fun x => rfl), hfind]
    rfl
  · intro db oid h
    cases hfind : findOrder db.orders oid with
    | none => simp only [reduceStockAfterPayment, hfind]; exact h
    | some o =>
        by_cases hsr : o.stockReduced
        · simp only [reduceStockAfterPayment, hfind, hsr, if_true]; exact h
        · simp only [reduceStockAfterPayment, hfind, hsr, Bool.false_eq_true, if_false,
            updateOrderDB]
          exact reduceItems_nonneg h
  · intro db o pd rs h
    simp only [executePaymentTransaction]
    intro p hp
    rw [(createPaymentRecord_frame _ _).2.1] at hp
    revert hp
    split
    · simp only [updateOrderDB]
      exact fun hp => condReduceItems_nonneg h p hp
    · exact fun hp => h p hp
  · intro db uid adm oid r h
    cases hfind : findOrder db.orders oid with
    | none => simp only [cancelRoute, hfind]; exact h
    | some o =>
        simp only [cancelRoute, hfind]
        split
        · exact h
        · split
          · exact h
          · cases hcancel : cancelOrderWithStockRestore db oid
              (jsOr r ("Cancelled by " ++ if adm = true then "admin" else "user")) with
            | error e => simp only [hcancel]; exact h
            | ok db1 =>
                simp only [hcancel]
                revert hcancel
                simp only [cancelOrderWithStockRestore, hfind]
                split
                · intro hc; exact absurd hc (by simp)
                · intro hc
                  simp only [Except.ok.injEq] at hc
                  subst hc
                  simp only [updateOrderDB]
                  split
                  · exact restoreItems_nonneg h
                  · exact h

/-- Witness for C2 (amended): on concrete inventories the conditional update
leaves a short stock (1 < 2) untouched, and decrements a covering stock
(5 ≥ 2) by exactly 2. -/
theorem claim_C2_witness :
    condReduceItems [wProd 1] [wItem2] = [wProd 1] ∧
    findProduct (condReduceItems [wProd 5] [wItem2]) 1 =
      some { wProd 5 with stock := (5 : Int) - (qtyOr1 2 : Int) } := by
  constructor
  · exact (claim_C2_stock_amended.1 [wProd 1] wItem2 1 (wProd 1) rfl rfl).2
      (by decide) (by decide)
  · exact (claim_C2_stock_amended.1 [wProd 5] wItem2 1 (wProd 5) rfl rfl).1 (by decide)

/-- Counterexample for C3: a cart-checkout verify call with a wrong proof is
rejected with the invalid-signature error but mutates nothing — in
particular no `FAILED` Payment Ledger Entry is written (the ledger stays
empty), contradicting the claim that the failure is recorded. -/
theorem claim_C3_counterexample :
    verify hmacConcat "k" wDB3 7 wReqBad = (wDB3, VerifyResult.invalidSignature) ∧
    wDB3.payments = [] :=
  ⟨rfl, rfl⟩

/-- C3 (amended): a verify call with a proof that does not match the keyed
hash of `"{orderId}|{paymentId}"` always fails with the invalid-signature
error and creates or mutates no Order; only the `verify-upi` route records
the failure as a `FAILED` ledger entry (amount 0) — the cart-checkout
`verify` route records nothing and leaves the database wholly unchanged. -/
theorem claim_C3_signature_amended :
    (∀ (hm : String → String → String) (secret : String) (db : DB) (uid : Nat)
       (req : VerifyReq),
       isPaymentAlreadyProcessed db req.razorpayPaymentId = false →
       some (hm secret (jsStr req.razorpayOrderId ++ "|" ++ jsStr req.razorpayPaymentId)) ≠
         req.razorpaySignature →
       verify hm secret db uid req = (db, VerifyResult.invalidSignature)) ∧
    (∀ (hm : String → String → String) (secret : String) (db : DB) (uid : Nat)
       (req : UpiReq),
       isPaymentAlreadyProcessed db req.razorpayPaymentId = false →
       some (hm secret (jsStr req.razorpayOrderId ++ "|" ++ jsStr req.razorpayPaymentId)) ≠
         req.razorpaySignature →
       (verifyUpi hm secret db uid req).2 = UpiResult.invalidSignature ∧
       ((verifyUpi hm secret db uid req).1).orders = db.orders ∧
       (∀ s, req.razorpayPaymentId = some s → hasPaymentWithPid db.payments s = false →
          ((verifyUpi hm secret db uid req).1).payments =
            db.payments ++
              [{ razorpayPaymentId := req.razorpayPaymentId,
                 razorpayOrderId := req.razorpayOrderId, order := some req.orderId,
                 user := uid, amount := 0, method := "UPI", status := "FAILED" }])) := by
  constructor
  · intro hm secret db uid req hguard hsig
    simp only [verify, hguard, Bool.false_eq_true, if_false]
    rw [if_pos hsig]
  · intro hm secret db uid req hguard hsig
    simp only [verifyUpi, hguard, Bool.false_eq_true, if_false]
    rw [if_pos hsig]
    refine ⟨rfl, (createPaymentRecord_frame _ _).1, ?_⟩
    intro s hs hnp
    simp only [createPaymentRecord, hs, hnp, Bool.false_eq_true, if_false]

/-- Witness for C3 (amended): a concrete bad-proof `verify-upi` call is
rejected and appends exactly the `FAILED` amount-0 ledger entry. -/
theorem claim_C3_witness :
    (verifyUpi hmacConcat "k" (wDB [wOrderBase] [] [] [] []) 7 wUpiBad).2 =
      UpiResult.invalidSignature ∧
    ((verifyUpi hmacConcat "k" (wDB [wOrderBase] [] [] [] []) 7 wUpiBad).1).payments =
      (wDB [wOrderBase] [] [] [] []).payments ++
        [{ razorpayPaymentId := some "p1", razorpayOrderId := some "ro1",
           order := some 1, user := 7, amount := 0, method := "UPI",
           status := "FAILED" }] := by
  have h := claim_C3_signature_amended.2 hmacConcat "k" (wDB [wOrderBase] [] [] [] [])
    7 wUpiBad (by decide) (by decide)
  exact ⟨h.1, h.2.2 "p1" rfl rfl⟩

/-- Witness for C9 at a concrete COD-eligible order: products and ledger are
untouched. -/
theorem claim_C9_witness :
    ((cod (wDB [wOrderBase] [wProd 5] [] [wCart] [⟨7, []⟩]) 7 (some 1)).1).products =
        (wDB [wOrderBase] [wProd 5] [] [wCart] [⟨7, []⟩]).products ∧
    ((cod (wDB [wOrderBase] [wProd 5] [] [wCart] [⟨7, []⟩]) 7 (some 1)).1).payments =
        (wDB [wOrderBase] [wProd 5] [] [wCart] [⟨7, []⟩]).payments := by
  have h := claim_C9_cod_frame (wDB [wOrderBase] [wProd 5] [] [wCart] [⟨7, []⟩])
    7 1 wOrderBase rfl rfl (by decide)
  exact ⟨h.1, h.2.1⟩

end ClothShop
